import Mathlib

/-!
Verification development for the Gamesphere Import Tool's library
reconciliation engine (`src/main.py`).  The Python source is shallowly
embedded: strings are Lean `String`s manipulated through structural
helpers mirroring Python's `str` methods, the file system and the network
are oracle functions passed explicitly, and each engine function
(`process_existing_apps`, `main`'s normal flow, `fetch_grid`,
`remove_all_apps_from_config`, `save_sunshine_config`) becomes a pure
Lean definition.
-/

set_option maxHeartbeats 1000000
set_option linter.unusedTactic false

namespace Gamesphere

/-! ### Python-string helpers

Structural models of the `str` operations the source uses
(`strip`, `startswith`, `endswith`, `in`, `find`/`index`, slicing,
`split`, `lower`).  They operate on `String.data` so that concrete
instances reduce inside `decide`/`rfl`. -/

/-- Characters removed by Python's `str.strip()` (ASCII whitespace). -/
def isPySpace (c : Char) : Bool :=
  c == ' ' || c == '\t' || c == '\n' || c == '\r' || c == '\x0b' || c == '\x0c'

/-- Model of Python `s.strip()`. -/
def pyStrip (s : String) : String :=
  ⟨((s.data.dropWhile isPySpace).reverse.dropWhile isPySpace).reverse⟩

/-- Model of Python `s.startswith(pre)`. -/
def pyStartsWith (s pre : String) : Bool :=
  pre.data.isPrefixOf s.data

/-- Model of Python `s.endswith(suf)`. -/
def pyEndsWith (s suf : String) : Bool :=
  suf.data.isSuffixOf s.data

/-- Model of Python `c in s` for a single character. -/
def pyContainsChar (s : String) (c : Char) : Bool :=
  s.data.contains c

/-- First index at which `pat` occurs in `l`, scanning from index `i`. -/
def pyFindAux (pat : List Char) : List Char → Nat → Option Nat
  | [], i => if pat.isEmpty then some i else none
  | x :: xs, i => if pat.isPrefixOf (x :: xs) then some i else pyFindAux pat xs (i + 1)

/-- Model of Python `s.find(pat)` (`some` index instead of `-1`). -/
def pyFind (s pat : String) : Option Nat :=
  pyFindAux pat.data s.data 0

/-- Model of Python `s.find(pat, start)` / `s.index(pat, start)`. -/
def pyFindFrom (s pat : String) (start : Nat) : Option Nat :=
  (pyFindAux pat.data (s.data.drop start) 0).map (· + start)

/-- Model of Python `pat in s` (substring containment). -/
def pyContains (s pat : String) : Bool :=
  (pyFind s pat).isSome

/-- Model of Python slicing `s[a:b]` (character indices). -/
def pySlice (s : String) (a b : Nat) : String :=
  ⟨(s.data.drop a).take (b - a)⟩

/-- Model of Python slicing `s[a:]`. -/
def pyDrop (s : String) (a : Nat) : String :=
  ⟨s.data.drop a⟩

/-- ASCII lower-casing of one character. -/
def asciiLower (c : Char) : Char :=
  if 'A' ≤ c ∧ c ≤ 'Z' then Char.ofNat (c.toNat + 32) else c

/-- Model of Python `s.lower()` (ASCII range; the paths involved are ASCII). -/
def pyLower (s : String) : String :=
  ⟨s.data.map asciiLower⟩

/-- Model of Python `s.split(c)` on a list of characters: always returns at
least one (possibly empty) piece, like Python's `str.split` with an explicit
separator. -/
def pySplitL (c : Char) : List Char → List (List Char)
  | [] => [[]]
  | x :: xs =>
    match pySplitL c xs with
    | [] => [[]]
    | h :: t => if x = c then [] :: h :: t else (x :: h) :: t

/-- Model of Python `s.split(c)` returning strings. -/
def pySplit (c : Char) (s : String) : List String :=
  (pySplitL c s.data).map (fun l => ⟨l⟩)

/-! ### Path helpers

Models of the `os.path` functions the source calls.  They cover the plain
drive-letter / separator-joined paths the tool manipulates (no UNC paths,
no `.`/`..`-free special cases beyond the standard resolution). -/

/-- `os.path.sep` for the modelled platform: `'\\'` on Windows
(`os.name == 'nt'`), `'/'` elsewhere. -/
def sepOf (nt : Bool) : Char :=
  if nt then '\\' else '/'

/-- `..`-resolution step of `os.path.normpath`: processed components so far,
remaining components. -/
def normComps (isAbs : Bool) : List String → List String → List String
  | acc, [] => acc
  | acc, comp :: rest =>
    if comp = ".." then
      match acc.getLast? with
      | some lastC =>
        if lastC = ".." then normComps isAbs (acc ++ [comp]) rest
        else normComps isAbs acc.dropLast rest
      | none =>
        if isAbs then normComps isAbs acc rest else normComps isAbs [comp] rest
    else normComps isAbs (acc ++ [comp]) rest

/-- Join components with the separator. -/
def joinSep (sep : Char) : List String → String
  | [] => ""
  | [x] => x
  | x :: y :: rest => x ++ ⟨[sep]⟩ ++ joinSep sep (y :: rest)

/-- Model of `os.path.normpath` for plain paths: on Windows forward slashes
become backslashes, empty and `.` components are dropped, `..` components are
resolved, and trailing separators are removed. -/
def normpath (nt : Bool) (s : String) : String :=
  let sep := sepOf nt
  let s1 : String := if nt then ⟨s.data.map (fun c => if c = '/' then sep else c)⟩ else s
  if s1.data.isEmpty then "." else
  let isAbs := s1.data.headD ' ' = sep
  let comps := ((pySplitL sep s1.data).map (fun l => (⟨l⟩ : String))).filter
    (fun c => decide (c ≠ "" ∧ c ≠ "."))
  let body := joinSep sep (normComps isAbs [] comps)
  let out := if isAbs then (⟨[sep]⟩ : String) ++ body else body
  if out = "" then "." else out

/-- Model of `os.path.join folder name` for a relative `name`. -/
def joinPath (nt : Bool) (a b : String) : String :=
  if a = "" then b
  else if pyEndsWith a ⟨[sepOf nt]⟩ then a ++ b
  else a ++ (⟨[sepOf nt]⟩ : String) ++ b

/-- Model of `os.path.dirname`: everything before the last separator
(empty when the path has no separator). -/
def dirnameOf (nt : Bool) (p : String) : String :=
  let parts := (pySplitL (sepOf nt) p.data).map (fun l => (⟨l⟩ : String))
  if parts.length ≤ 1 then "" else joinSep (sepOf nt) parts.dropLast

/-- Model of `os.path.abspath` on the already-absolute paths the tool
stores (absolute paths are only normalized). -/
def abspathModel (nt : Bool) (p : String) : String :=
  normpath nt p

/-! ### The persisted app record

`ConfiguredApp` entries of `apps.json`.  The engine's own entries
(`add_new_games`, `add_epic_games`, `add_xbox_games`, `add_custom_games`)
populate exactly the fields below; `prepCmd` models the optional
`prep-cmd` list of the stock entries and `extra` carries any unknown
keys of hand-edited entries, which the engine never inspects. -/

structure App where
  name : String
  cmd : String
  output : String
  detached : String
  elevated : String
  hidden : String
  waitAll : String
  exitTimeout : String
  imagePath : String
  prepCmd : List (String × String × Bool)
  extra : List (String × String)
deriving DecidableEq, Repr

/-- The app dictionary shape shared by `add_new_games`, `add_epic_games`,
`add_xbox_games` and `add_custom_games` in `main.py`. -/
def mkImportedApp (name cmd imagePath : String) : App :=
  { name := name, cmd := cmd, output := "", detached := "", elevated := "false",
    hidden := "true", waitAll := "true", exitTimeout := "5",
    imagePath := imagePath, prepCmd := [], extra := [] }

/-! ### Command-shape parsing (`main.py` lines 521-542, 811-832) -/

def steamRunPfx : String := "steam://rungameid/"

def epicProtoMark : String := "com.epicgames.launcher://"

def epicAppsPfx : String := "com.epicgames.launcher://apps/"

/-- `app_id = cmd.split('/')[-1].split('?')[0]` from the Steam branch of
`process_existing_apps`. -/
def extractSteamId (cmd : String) : String :=
  ⟨(pySplitL '?' ((pySplitL '/' cmd.data).getLastD [])).headD []⟩

/-- The Epic app-name extraction
`cmd[idx+len(prefix):].split('?')[0].split('/')[0].strip()` used both in the
shortcut branch and in the direct-command branch of `process_existing_apps`
(`none` when `cmd.find(prefix)` returns `-1`). -/
def epicNameOf (s : String) : Option String :=
  match pyFind s epicAppsPfx with
  | some idx =>
    let rest := pyDrop s (idx + epicAppsPfx.length)
    some (pyStrip ⟨(pySplitL '/' ((pySplitL '?' rest.data).headD [])).headD []⟩)
  | none => none

/-- Model of `_shortcut_launch_cmd` (`main.py` line 521). -/
def shortcutLaunchCmd (nt : Bool) (p : String) : String :=
  "cmd /c start \"\" \"" ++ normpath nt p ++ "\""

/-- Model of `_extract_shortcut_path_from_cmd` (`main.py` line 527),
including its index arithmetic `i = c.index('start "" "') + 10` followed by
`path = c[i+1:j]` (so the first character after the opening quote is not
part of the returned path) and the fall-through to the bare-`.lnk` check. -/
def extractShortcutPathFromCmd (nt : Bool) (cmd : String) : Option String :=
  let c := pyStrip cmd
  let viaStart : Option String :=
    if pyContains c "start \"\" \"" && pyContains c ".lnk" then
      match pyFind c "start \"\" \"" with
      | some i0 =>
        let i := i0 + 10
        match pyFindFrom c "\"" (i + 1) with
        | some j =>
          let path := pySlice c (i + 1) j
          if pyEndsWith (pyLower path) ".lnk" then some (normpath nt path) else none
        | none => none
      | none => none
    else none
  match viaStart with
  | some p => some p
  | none =>
    if pyEndsWith (pyLower c) ".lnk" && pyContainsChar c (sepOf nt) then
      some (normpath nt c)
    else none

/-! ### `process_existing_apps` (`main.py` lines 739-860)

The inputs of the Python function (the loaded `apps` list, the discovered
Steam/Epic/Xbox dictionaries, the custom command set, the shortcuts folder)
plus the file-system/shortcut-reading effects it performs, gathered in a
context record.  `existsF` models `os.path.exists`, `isfileF` models
`os.path.isfile`, and `readTarget` models `_read_shortcut_target_win`. -/

structure Ctx where
  nt : Bool
  steam : List (String × String)
  epic : List (String × String)
  xbox : List (String × String)
  customCmds : List String
  shortcutsFolder : String
  existsF : String → Bool
  isfileF : String → Bool
  readTarget : String → Option String

def Ctx.steamKeys (c : Ctx) : List String := c.steam.map Prod.fst

def Ctx.epicKeys (c : Ctx) : List String := c.epic.map Prod.fst

def Ctx.xboxKeys (c : Ctx) : List String := c.xbox.map Prod.fst

/-- `shortcuts_folder_norm = os.path.normpath(shortcuts_folder) if shortcuts_folder else ""`. -/
def Ctx.folderN (c : Ctx) : String :=
  if c.shortcutsFolder ≠ "" then normpath c.nt c.shortcutsFolder else ""

/-- How one iteration of the `for app in sunshine_config.get('apps', [])`
loop classifies one entry; each constructor corresponds to one `append` /
removal site of the source. -/
inductive AppClass where
  | shortcutEpicKept (p a : String)
  | shortcutEpicRemoved (p a : String)
  | shortcutOther (p : String) (credit : Option String)
  | steamKept (i : String)
  | steamRemoved (i : String)
  | epicKept (a : String)
  | epicRemoved (a : String)
  | epicNoName
  | xboxKept (k : String)
  | customKept
  | unowned
deriving DecidableEq, Repr

/-- The `if/elif` chain following the shortcut branch
(`main.py` lines 811-858). -/
def classifyTail (ctx : Ctx) (cmd cmdNorm : String) : AppClass :=
  if pyStartsWith cmd steamRunPfx then
    let i := extractSteamId cmd
    if (Ctx.steamKeys ctx).contains i then .steamKept i else .steamRemoved i
  else if pyContains cmd epicProtoMark then
    match epicNameOf cmd with
    | some a => if (Ctx.epicKeys ctx).contains a then .epicKept a else .epicRemoved a
    | none => .epicNoName
  else if (Ctx.xboxKeys ctx).contains cmdNorm then .xboxKept cmdNorm
  else if (Ctx.xboxKeys ctx).contains cmd then .xboxKept cmd
  else if ctx.customCmds.contains cmd then .customKept
  else .unowned

/-- Classification of one persisted entry, mirroring the whole loop body of
`process_existing_apps` (shortcut branch at line 774 first, then the chain). -/
def classify (ctx : Ctx) (app : App) : AppClass :=
  let cmd := pyStrip app.cmd
  let cmdNorm := if pyContainsChar cmd (sepOf ctx.nt) then normpath ctx.nt cmd else cmd
  let sp : Option String :=
    if Ctx.folderN ctx ≠ "" then extractShortcutPathFromCmd ctx.nt cmd else none
  match sp with
  | some p =>
    if Ctx.folderN ctx ≠ "" ∧ pyStartsWith p (Ctx.folderN ctx) then
      match ctx.readTarget p with
      | some t =>
        if pyContains t epicProtoMark then
          match epicNameOf t with
          | some a =>
            if (Ctx.epicKeys ctx).contains a then .shortcutEpicKept p a
            else .shortcutEpicRemoved p a
          | none => .shortcutOther p none
        else if pyContainsChar t (sepOf ctx.nt) then
          let tn := normpath ctx.nt t
          if (Ctx.xboxKeys ctx).contains tn then .shortcutOther p (some tn)
          else if (Ctx.xboxKeys ctx).contains t then .shortcutOther p (some t)
          else .shortcutOther p none
        else .shortcutOther p none
      | none => .shortcutOther p none
    else classifyTail ctx cmd cmdNorm
  | none => classifyTail ctx cmd cmdNorm

/-- Model of `_delete_shortcut_if_in_folder` (`main.py` line 759): the path
it removes, if any. -/
def deleteShortcutIfInFolder (ctx : Ctx) (sp : String) : Option String :=
  if Ctx.folderN ctx = "" then none
  else if pyStartsWith (normpath ctx.nt sp) (Ctx.folderN ctx)
      && ctx.isfileF (normpath ctx.nt sp) then some (normpath ctx.nt sp)
  else none

/-- Contributions of one loop iteration: whether the entry is kept, the
removal-report tuples, the identity sets credited, and the files deleted. -/
structure StepOut where
  keepApp : Bool
  remSteam : Option (String × String)
  remEpic : Option (String × String)
  exSteam : Option String
  exEpic : Option String
  exXbox : Option String
  delGrid : Option String
  delShortcut : Option String
deriving Repr

/-- Effects of one loop iteration of `process_existing_apps` on its
accumulators, derived from the classification.  `delGrid` models
`if grid_path and os.path.exists(grid_path): os.remove(grid_path)` on the
removal branches. -/
def appStep (ctx : Ctx) (app : App) : StepOut :=
  let gridDel : Option String :=
    if app.imagePath ≠ "" ∧ ctx.existsF app.imagePath then some app.imagePath else none
  match classify ctx app with
  | .steamKept i => ⟨true, none, none, some i, none, none, none, none⟩
  | .steamRemoved i => ⟨false, some (app.name, i), none, none, none, none, gridDel, none⟩
  | .epicKept a => ⟨true, none, none, none, some a, none, none, none⟩
  | .epicRemoved a => ⟨false, none, some (app.name, a), none, none, none, gridDel, none⟩
  | .shortcutEpicKept _ a => ⟨true, none, none, none, some a, none, none, none⟩
  | .shortcutEpicRemoved p a =>
      ⟨false, none, some (app.name, a), none, none, none, gridDel,
        deleteShortcutIfInFolder ctx p⟩
  | .shortcutOther _ credit => ⟨true, none, none, none, none, credit, none, none⟩
  | .xboxKept k => ⟨true, none, none, none, none, some k, none, none⟩
  | .epicNoName => ⟨true, none, none, none, none, none, none, none⟩
  | .customKept => ⟨true, none, none, none, none, none, none, none⟩
  | .unowned => ⟨true, none, none, none, none, none, none, none⟩

/-- Return value of `process_existing_apps` plus the deletions it performed. -/
structure PEAResult where
  updatedApps : List App
  removedSteam : List (String × String)
  removedEpic : List (String × String)
  existingSteamApps : List String
  existingEpicApps : List String
  existingXboxCmds : List String
  deletedGrids : List String
  deletedShortcuts : List String
deriving DecidableEq, Repr

def emptyPEA : PEAResult := ⟨[], [], [], [], [], [], [], []⟩

/-- One iteration of the loop: append this entry's contributions. -/
def peaStep (ctx : Ctx) (acc : PEAResult) (app : App) : PEAResult :=
  let o := appStep ctx app
  { updatedApps := acc.updatedApps ++ (if o.keepApp then [app] else [])
    removedSteam := acc.removedSteam ++ o.remSteam.toList
    removedEpic := acc.removedEpic ++ o.remEpic.toList
    existingSteamApps := acc.existingSteamApps ++ o.exSteam.toList
    existingEpicApps := acc.existingEpicApps ++ o.exEpic.toList
    existingXboxCmds := acc.existingXboxCmds ++ o.exXbox.toList
    deletedGrids := acc.deletedGrids ++ o.delGrid.toList
    deletedShortcuts := acc.deletedShortcuts ++ o.delShortcut.toList }

/-- Model of `process_existing_apps`: the single pass over the persisted
apps list. -/
def processExistingApps (ctx : Ctx) (apps : List App) : PEAResult :=
  apps.foldl (peaStep ctx) emptyPEA

/-- Componentwise description of the fold. -/
def peaOf (ctx : Ctx) (apps : List App) : PEAResult :=
  { updatedApps := apps.filter (fun a => (appStep ctx a).keepApp)
    removedSteam := apps.filterMap (fun a => (appStep ctx a).remSteam)
    removedEpic := apps.filterMap (fun a => (appStep ctx a).remEpic)
    existingSteamApps := apps.filterMap (fun a => (appStep ctx a).exSteam)
    existingEpicApps := apps.filterMap (fun a => (appStep ctx a).exEpic)
    existingXboxCmds := apps.filterMap (fun a => (appStep ctx a).exXbox)
    deletedGrids := apps.filterMap (fun a => (appStep ctx a).delGrid)
    deletedShortcuts := apps.filterMap (fun a => (appStep ctx a).delShortcut) }

theorem pea_foldl_aux (ctx : Ctx) (apps : List App) :
    ∀ acc : PEAResult, apps.foldl (peaStep ctx) acc =
      { updatedApps := acc.updatedApps ++ (peaOf ctx apps).updatedApps
        removedSteam := acc.removedSteam ++ (peaOf ctx apps).removedSteam
        removedEpic := acc.removedEpic ++ (peaOf ctx apps).removedEpic
        existingSteamApps := acc.existingSteamApps ++ (peaOf ctx apps).existingSteamApps
        existingEpicApps := acc.existingEpicApps ++ (peaOf ctx apps).existingEpicApps
        existingXboxCmds := acc.existingXboxCmds ++ (peaOf ctx apps).existingXboxCmds
        deletedGrids := acc.deletedGrids ++ (peaOf ctx apps).deletedGrids
        deletedShortcuts := acc.deletedShortcuts ++ (peaOf ctx apps).deletedShortcuts } := by
  induction apps with
  | nil => intro acc; simp [peaOf]
  | cons a as ih =>
    intro acc
    simp only [List.foldl_cons, ih, peaStep, peaOf, List.filter_cons, List.filterMap_cons,
      PEAResult.mk.injEq]
    refine ⟨?_, ?_, ?_, ?_, ?_, ?_, ?_, ?_⟩ <;>
      first
      | ((cases h : (appStep ctx a).keepApp <;> simp [h, List.append_assoc]); done)
      | ((cases h : (appStep ctx a).remSteam <;> simp [h, List.append_assoc]); done)
      | ((cases h : (appStep ctx a).remEpic <;> simp [h, List.append_assoc]); done)
      | ((cases h : (appStep ctx a).exSteam <;> simp [h, List.append_assoc]); done)
      | ((cases h : (appStep ctx a).exEpic <;> simp [h, List.append_assoc]); done)
      | ((cases h : (appStep ctx a).exXbox <;> simp [h, List.append_assoc]); done)
      | ((cases h : (appStep ctx a).delGrid <;> simp [h, List.append_assoc]); done)
      | ((cases h : (appStep ctx a).delShortcut <;> simp [h, List.append_assoc]); done)

theorem processExistingApps_eq (ctx : Ctx) (apps : List App) :
    processExistingApps ctx apps = peaOf ctx apps := by
  simp [processExistingApps, pea_foldl_aux, emptyPEA]

/-! ### Per-field descriptions of `process_existing_apps` -/

theorem pea_updatedApps (ctx : Ctx) (apps : List App) :
    (processExistingApps ctx apps).updatedApps =
      apps.filter (fun a => (appStep ctx a).keepApp) := by
  simp only [processExistingApps_eq, peaOf]

theorem pea_removedSteam (ctx : Ctx) (apps : List App) :
    (processExistingApps ctx apps).removedSteam =
      apps.filterMap (fun a => (appStep ctx a).remSteam) := by
  simp only [processExistingApps_eq, peaOf]

theorem pea_removedEpic (ctx : Ctx) (apps : List App) :
    (processExistingApps ctx apps).removedEpic =
      apps.filterMap (fun a => (appStep ctx a).remEpic) := by
  simp only [processExistingApps_eq, peaOf]

theorem pea_existingSteam (ctx : Ctx) (apps : List App) :
    (processExistingApps ctx apps).existingSteamApps =
      apps.filterMap (fun a => (appStep ctx a).exSteam) := by
  simp only [processExistingApps_eq, peaOf]

theorem pea_existingEpic (ctx : Ctx) (apps : List App) :
    (processExistingApps ctx apps).existingEpicApps =
      apps.filterMap (fun a => (appStep ctx a).exEpic) := by
  simp only [processExistingApps_eq, peaOf]

theorem pea_existingXbox (ctx : Ctx) (apps : List App) :
    (processExistingApps ctx apps).existingXboxCmds =
      apps.filterMap (fun a => (appStep ctx a).exXbox) := by
  simp only [processExistingApps_eq, peaOf]

theorem pea_deletedGrids (ctx : Ctx) (apps : List App) :
    (processExistingApps ctx apps).deletedGrids =
      apps.filterMap (fun a => (appStep ctx a).delGrid) := by
  simp only [processExistingApps_eq, peaOf]

theorem pea_deletedShortcuts (ctx : Ctx) (apps : List App) :
    (processExistingApps ctx apps).deletedShortcuts =
      apps.filterMap (fun a => (appStep ctx a).delShortcut) := by
  simp only [processExistingApps_eq, peaOf]

/-- A credited Steam identity always comes from a kept entry. -/
theorem exSteam_keep (ctx : Ctx) (a : App) (i : String)
    (h : (appStep ctx a).exSteam = some i) : (appStep ctx a).keepApp = true := by
  unfold appStep at *
  cases hc : classify ctx a <;> simp [hc] at h ⊢

/-- A credited Epic identity always comes from a kept entry. -/
theorem exEpic_keep (ctx : Ctx) (a : App) (i : String)
    (h : (appStep ctx a).exEpic = some i) : (appStep ctx a).keepApp = true := by
  unfold appStep at *
  cases hc : classify ctx a <;> simp [hc] at h ⊢

/-- A credited Xbox command always comes from a kept entry. -/
theorem exXbox_keep (ctx : Ctx) (a : App) (i : String)
    (h : (appStep ctx a).exXbox = some i) : (appStep ctx a).keepApp = true := by
  unfold appStep at *
  cases hc : classify ctx a <;> simp [hc] at h ⊢

/-! ### `main`'s normal import flow (`main.py` lines 1248-1329)

All inputs the flow consumes are gathered into `Env`: discovered source
collections, configured folders, the platform (`os.name == 'nt'`,
flatpak-Steam presence on Linux), and oracles for the artwork fetches, the
Python `hash`-derived file ids, shortcut creation, and the file system.
The artwork oracles return the local path `fetch_grid` /
`fetch_grid_by_name` would produce for the given identity (or `none`),
abstracting the network interaction that §`fetchGrid` models in detail. -/

structure CustomGame where
  name : String
  cmd : String
  imagePath : String
deriving DecidableEq, Repr

structure Env where
  nt : Bool
  flatpak : Bool
  steam : List (String × String)
  epic : List (String × String)
  xbox : List (String × String)
  customList : List CustomGame
  shortcutsFolder : String
  steamGrid : String → Option String
  epicGrid : String → Option String
  xboxGrid : String → Option String
  customGrid : String → Option String
  hashId : String → String
  existsF : String → Bool
  isfileF : String → Bool
  readTarget : String → Option String
  createShortcut : String → Bool

/-- The context `process_existing_apps` is called with from `main`
(line 1279); `custom_cmds = {g["cmd"] for g in custom_list}`. -/
def mkCtx (env : Env) : Ctx :=
  { nt := env.nt, steam := env.steam, epic := env.epic, xbox := env.xbox,
    customCmds := env.customList.map (fun g => g.cmd),
    shortcutsFolder := env.shortcutsFolder,
    existsF := env.existsF, isfileF := env.isfileF, readTarget := env.readTarget }

/-- The Steam launch command of `add_new_games` (lines 889-901): protocol
URI on Windows, a `flatpak`/`steam` wrapper elsewhere. -/
def steamCmdStr (env : Env) (i : String) : String :=
  if env.nt then steamRunPfx ++ i
  else if env.flatpak then "flatpak run com.valvesoftware.Steam steam://rungameid/" ++ i
  else "steam steam://rungameid/" ++ i

/-- `com.epicgames.launcher://apps/{app}?action=launch&silent=true`. -/
def epicUrlOf (a : String) : String :=
  epicAppsPfx ++ a ++ "?action=launch&silent=true"

/-- Model of `_epic_launch_cmd` (line 926). -/
def epicLaunchCmd (nt : Bool) (a : String) : String :=
  if nt then "start \"\" \"" ++ epicUrlOf a ++ "\"" else epicUrlOf a

/-- `safe_id` of `add_epic_games` (line 952). -/
def sanitizeEpicId (a : String) : String :=
  "epic_" ++ ⟨a.data.map (fun c =>
    if c.isAlphanum ∨ c = '.' ∨ c = '_' ∨ c = '-' then c else '_')⟩

/-- Model of `add_new_games` (line 862); the worker-pool completion order is
modelled as the list order of `newIds`. -/
def addNewGames (env : Env) (newIds : List String) : List App :=
  newIds.filterMap fun i =>
    (env.steam.lookup i).map fun nm =>
      mkImportedApp nm (steamCmdStr env i) ((env.steamGrid i).getD "")

/-- Model of `add_epic_games` (line 934). -/
def addEpicGames (env : Env) (newIds : List String) : List App :=
  newIds.filterMap fun a =>
    (env.epic.lookup a).map fun nm =>
      let safeId := sanitizeEpicId a
      let cmd :=
        if env.shortcutsFolder ≠ "" ∧ env.nt then
          let sp := joinPath env.nt env.shortcutsFolder (safeId ++ ".lnk")
          if env.createShortcut sp then shortcutLaunchCmd env.nt sp
          else epicLaunchCmd env.nt a
        else epicLaunchCmd env.nt a
      mkImportedApp nm cmd ((env.epicGrid a).getD "")

/-- Model of `add_xbox_games` (line 1025). -/
def addXboxGames (env : Env) (newKs : List String) : List App :=
  newKs.filterMap fun k =>
    (env.xbox.lookup k).map fun nm =>
      let safeId := "xbox_" ++ env.hashId k
      let cmd :=
        if env.shortcutsFolder ≠ "" ∧ env.nt ∧ env.isfileF k then
          let sp := joinPath env.nt env.shortcutsFolder (safeId ++ ".lnk")
          if env.createShortcut sp then shortcutLaunchCmd env.nt sp else k
        else k
      mkImportedApp nm cmd ((env.xboxGrid k).getD "")

/-- The app `add_custom_games` builds for one custom entry that passes its
duplicate check. -/
def mkCustomApp (env : Env) (g : CustomGame) : App :=
  let exeCmd := pyStrip g.cmd
  let nm := if pyStrip g.name = "" then "Custom Game" else pyStrip g.name
  let ip0 := pyStrip g.imagePath
  let ip := if ip0 = "" then (env.customGrid exeCmd).getD "" else ip0
  let cmd :=
    if env.shortcutsFolder ≠ "" ∧ env.nt ∧ pyContainsChar exeCmd (sepOf env.nt)
        ∧ env.isfileF exeCmd then
      let safeId := "custom_" ++ env.hashId exeCmd
      let sp := joinPath env.nt env.shortcutsFolder (safeId ++ ".lnk")
      if env.createShortcut sp then shortcutLaunchCmd env.nt sp else exeCmd
    else exeCmd
  mkImportedApp nm cmd ip

/-- Model of `add_custom_games` (line 981). -/
def addCustomGames (env : Env) (existingCmds : List String) : List App :=
  env.customList.filterMap fun g =>
    if pyStrip g.cmd = "" ∨ existingCmds.contains (pyStrip g.cmd) then none
    else some (mkCustomApp env g)

/-- `process_existing_apps` as invoked by `main`. -/
def peaOfRun (env : Env) (apps0 : List App) : PEAResult :=
  processExistingApps (mkCtx env) apps0

/-- `new_games = set(installed_games.keys()) - existing_steam_apps`
(line 1284; modelled in discovery-list order). -/
def newSteamOf (env : Env) (apps0 : List App) : List String :=
  (env.steam.map Prod.fst).filter
    (fun i => !(peaOfRun env apps0).existingSteamApps.contains i)

/-- `new_epic = set(installed_epic.keys()) - existing_epic_apps` (line 1285). -/
def newEpicOf (env : Env) (apps0 : List App) : List String :=
  (env.epic.map Prod.fst).filter
    (fun a => !(peaOfRun env apps0).existingEpicApps.contains a)

/-- `new_xbox = set(installed_xbox.keys()) - existing_xbox_cmds` (line 1286). -/
def newXboxOf (env : Env) (apps0 : List App) : List String :=
  (env.xbox.map Prod.fst).filter
    (fun k => !(peaOfRun env apps0).existingXboxCmds.contains k)

/-- `existing_cmds` of lines 1287-1289: stripped commands of the kept apps
plus the normalized forms of those containing a separator. -/
def existingCmdsOf (env : Env) (apps0 : List App) : List String :=
  let base := (peaOfRun env apps0).updatedApps.map (fun a => pyStrip a.cmd)
  base ++ (base.filter (fun c => pyContainsChar c (sepOf env.nt))).map (normpath env.nt)

/-- `new_custom` of line 1290. -/
def newCustomOf (env : Env) (apps0 : List App) : List CustomGame :=
  env.customList.filter fun g =>
    !((existingCmdsOf env apps0).contains (pyStrip g.cmd))
      && !((existingCmdsOf env apps0).contains (normpath env.nt (pyStrip g.cmd)))

/-- The no-change short-circuit condition of line 1306. -/
def noChangesOf (env : Env) (apps0 : List App) : Bool :=
  (peaOfRun env apps0).removedSteam.isEmpty
    && (peaOfRun env apps0).removedEpic.isEmpty
    && (newSteamOf env apps0).isEmpty
    && (newEpicOf env apps0).isEmpty
    && (newXboxOf env apps0).isEmpty
    && (newCustomOf env apps0).isEmpty

structure RunResult where
  apps : List App
  saved : Bool
  noChanges : Bool
deriving DecidableEq, Repr

/-- One normal (non-dry-run) reconciliation run of `main` (lines 1277-1329):
diff, short-circuit when nothing changed, otherwise extend the kept list with
the per-source additions and save.  `saved` records whether
`save_sunshine_config` was invoked. -/
def runNormal (env : Env) (apps0 : List App) : RunResult :=
  if noChangesOf env apps0 then
    { apps := apps0, saved := false, noChanges := true }
  else
    { apps := (peaOfRun env apps0).updatedApps
        ++ addNewGames env (newSteamOf env apps0)
        ++ addEpicGames env (newEpicOf env apps0)
        ++ addXboxGames env (newXboxOf env apps0)
        ++ addCustomGames env (existingCmdsOf env apps0),
      saved := true, noChanges := false }

/-! ### Classification helper lemmas -/

/-- The claim-side description of an opaque/unowned entry: its command is
not a shortcut inside the configured shortcuts folder, not a Steam
`rungameid` URI, does not contain the Epic protocol marker, is not a
discovered Xbox executable path (normalized or verbatim), and is not a
custom-list command. -/
def unownedCondB (ctx : Ctx) (app : App) : Bool :=
  let cmd := pyStrip app.cmd
  let cmdNorm := if pyContainsChar cmd (sepOf ctx.nt) then normpath ctx.nt cmd else cmd
  (match (if Ctx.folderN ctx ≠ "" then extractShortcutPathFromCmd ctx.nt cmd else none) with
   | some p => !(pyStartsWith p (Ctx.folderN ctx))
   | none => true)
  && !(pyStartsWith cmd steamRunPfx)
  && !(pyContains cmd epicProtoMark)
  && !((Ctx.xboxKeys ctx).contains cmdNorm)
  && !((Ctx.xboxKeys ctx).contains cmd)
  && !(ctx.customCmds.contains cmd)

/-- The shortcut branch is skipped when no extracted shortcut path lies
inside the configured folder, so classification falls through to the
`if/elif` chain. -/
theorem classify_eq_tail (ctx : Ctx) (app : App)
    (hsc : Ctx.folderN ctx = "" ∨
      ∀ p, extractShortcutPathFromCmd ctx.nt (pyStrip app.cmd) = some p →
        pyStartsWith p (Ctx.folderN ctx) = false) :
    classify ctx app = classifyTail ctx (pyStrip app.cmd)
      (if pyContainsChar (pyStrip app.cmd) (sepOf ctx.nt) then
        normpath ctx.nt (pyStrip app.cmd) else pyStrip app.cmd) := by
  simp only [classify]
  by_cases hfn : Ctx.folderN ctx = ""
  · rw [if_neg (by simp [hfn])]
  · rw [if_pos hfn]
    rcases hsc with hf | hext
    · exact absurd hf hfn
    · cases heq : extractShortcutPathFromCmd ctx.nt (pyStrip app.cmd) with
      | none => rfl
      | some p =>
        have hsw := hext p heq
        simp [hsw, hfn]

/-- Unowned condition gives the final `else` branch of the chain. -/
theorem unowned_classifyTail (ctx : Ctx) (cmd cmdNorm : String)
    (h1 : pyStartsWith cmd steamRunPfx = false)
    (h2 : pyContains cmd epicProtoMark = false)
    (h3 : (Ctx.xboxKeys ctx).contains cmdNorm = false)
    (h4 : (Ctx.xboxKeys ctx).contains cmd = false)
    (h5 : ctx.customCmds.contains cmd = false) :
    classifyTail ctx cmd cmdNorm = AppClass.unowned := by
  have h3' : cmdNorm ∉ Ctx.xboxKeys ctx := by simpa using h3
  have h4' : cmd ∉ Ctx.xboxKeys ctx := by simpa using h4
  have h5' : cmd ∉ ctx.customCmds := by simpa using h5
  simp [classifyTail, h1, h2, h3', h4', h5']

/-- An entry satisfying the unowned condition is classified `unowned`. -/
theorem unowned_classify (ctx : Ctx) (app : App)
    (h : unownedCondB ctx app = true) : classify ctx app = AppClass.unowned := by
  unfold unownedCondB at h
  simp only [Bool.and_eq_true, Bool.not_eq_true'] at h
  obtain ⟨⟨⟨⟨⟨h0, h1⟩, h2⟩, h3⟩, h4⟩, h5⟩ := h
  have hsc : Ctx.folderN ctx = "" ∨
      ∀ p, extractShortcutPathFromCmd ctx.nt (pyStrip app.cmd) = some p →
        pyStartsWith p (Ctx.folderN ctx) = false := by
    by_cases hfn : Ctx.folderN ctx = ""
    · exact Or.inl hfn
    · refine Or.inr fun p hp => ?_
      rw [if_pos hfn, hp] at h0
      simpa using h0
  rw [classify_eq_tail ctx app hsc]
  exact unowned_classifyTail ctx _ _ h1 h2 h3 h4 h5

/-- An unowned entry is kept with no contributions. -/
theorem unowned_appStep (ctx : Ctx) (app : App)
    (h : unownedCondB ctx app = true) :
    appStep ctx app = ⟨true, none, none, none, none, none, none, none⟩ := by
  unfold appStep
  rw [unowned_classify ctx app h]

/-- A dropped entry's artwork deletion is exactly the
`if grid_path and os.path.exists(grid_path)` check. -/
theorem keep_false_delGrid (ctx : Ctx) (a : App)
    (h : (appStep ctx a).keepApp = false) :
    (appStep ctx a).delGrid =
      (if a.imagePath ≠ "" ∧ ctx.existsF a.imagePath then some a.imagePath else none) := by
  unfold appStep at *
  cases hc : classify ctx a <;> simp [hc] at h ⊢

/-- Every deleted artwork path comes from a dropped entry whose
`image-path` the `existsF` oracle reported present. -/
theorem delGrid_shape (ctx : Ctx) (a : App) (p : String)
    (h : (appStep ctx a).delGrid = some p) :
    p = a.imagePath ∧ p ≠ "" ∧ ctx.existsF p = true ∧ (appStep ctx a).keepApp = false := by
  unfold appStep at *
  cases hc : classify ctx a <;> simp [hc] at h ⊢ <;>
    (obtain ⟨⟨hne, hex⟩, hp⟩ := h; subst hp; exact ⟨rfl, hne, hex⟩)

/-! ### Claim C2 — artwork deletion on removal has no containment check

The spec says a removed entry's artwork file is deleted only when it lies
inside the configured artwork directory.  The removal branches of
`process_existing_apps` (lines 817-824 and 837-844) delete
`app['image-path']` whenever the file exists, with no containment test
(unlike `remove_all_apps_from_config`, which does have one). -/

/-- Scenario for C2: the artwork directory is `C:\grids`, but the removed
Steam entry's artwork reference points into `C:\elsewhere`. -/
def ctxC2 : Ctx :=
  { nt := true, steam := [("100", "Kept Game")], epic := [], xbox := [], customCmds := [],
    shortcutsFolder := "",
    existsF := fun p => p == "C:\\elsewhere\\gone.png",
    isfileF := fun _ => false, readTarget := fun _ => none }

def appC2 : App := mkImportedApp "Gone Game" "steam://rungameid/999" "C:\\elsewhere\\gone.png"

/-- C2 counterexample: reconciliation removes the stale Steam entry `999`
and deletes its artwork file `C:\elsewhere\gone.png` even though that path
does not lie inside the configured artwork directory `C:\grids`, so the
claim "an artwork path pointing outside the configured artwork directory is
never deleted on removal" is false on this code. -/
theorem c2_counterexample :
    (processExistingApps ctxC2 [appC2]).deletedGrids = ["C:\\elsewhere\\gone.png"] ∧
    (processExistingApps ctxC2 [appC2]).removedSteam = [("Gone Game", "999")] ∧
    pyStartsWith "C:\\elsewhere\\gone.png" "C:\\grids" = false := by
  decide

/-- C2 (amended): when reconciliation removes an entry, its referenced
artwork file is deleted exactly when the reference is non-empty and the
file exists — the configured artwork directory is never consulted, so
artwork outside it is deleted as well; and every deleted artwork path is a
non-empty existing `image-path` of some dropped entry. -/
theorem c2_amended (ctx : Ctx) (apps : List App) :
    (∀ a ∈ apps, (appStep ctx a).keepApp = false → a.imagePath ≠ "" →
      ctx.existsF a.imagePath = true →
      a.imagePath ∈ (processExistingApps ctx apps).deletedGrids) ∧
    (∀ p ∈ (processExistingApps ctx apps).deletedGrids,
      p ≠ "" ∧ ctx.existsF p = true ∧
      ∃ a ∈ apps, a.imagePath = p ∧ (appStep ctx a).keepApp = false) := by
  constructor
  · intro a ha hk hne hex
    rw [pea_deletedGrids]
    refine List.mem_filterMap.mpr ⟨a, ha, ?_⟩
    rw [keep_false_delGrid ctx a hk, if_pos ⟨hne, hex⟩]
  · intro p hp
    rw [pea_deletedGrids] at hp
    obtain ⟨a, ha, hdel⟩ := List.mem_filterMap.mp hp
    obtain ⟨h1, h2, h3, h4⟩ := delGrid_shape ctx a p hdel
    exact ⟨h2, h3, a, ha, h1.symm, h4⟩

/-- Closed witness for `c2_amended` at the C2 scenario. -/
theorem c2_amended_witness :
    "C:\\elsewhere\\gone.png" ∈ (processExistingApps ctxC2 [appC2]).deletedGrids :=
  (c2_amended ctxC2 [appC2]).1 appC2 (by decide) (by decide) (by decide) (by decide)

/-! ### Claim C3 — opaque/unowned entries survive unchanged -/

/-- Iterated reconciliation runs, each against its own discovered sets. -/
def iterApps (envs : Nat → Env) (apps0 : List App) : Nat → List App
  | 0 => apps0
  | n + 1 => (runNormal (envs n) (iterApps envs apps0 n)).apps

/-- C3 (confirmed): an entry whose command matches none of the known source
patterns (`unownedCondB`) is kept unmodified by every reconciliation run —
it is a member of the kept-apps output of each run and of the persisted
list after any number of runs, whatever the discovered sets are. -/
theorem c3_unowned_survives (envs : Nat → Env) (apps0 : List App) (app : App)
    (hA : ∀ n, unownedCondB (mkCtx (envs n)) app = true) (h0 : app ∈ apps0) :
    ∀ n, app ∈ iterApps envs apps0 n ∧
      app ∈ (processExistingApps (mkCtx (envs n)) (iterApps envs apps0 n)).updatedApps := by
  have keepLem : ∀ n (apps : List App), app ∈ apps →
      app ∈ (processExistingApps (mkCtx (envs n)) apps).updatedApps := by
    intro n apps hmem
    rw [pea_updatedApps]
    refine List.mem_filter.mpr ⟨hmem, ?_⟩
    rw [unowned_appStep _ _ (hA n)]
  intro n
  induction n with
  | zero => exact ⟨h0, keepLem 0 apps0 h0⟩
  | succ n ih =>
    have hmem : app ∈ iterApps envs apps0 (n + 1) := by
      show app ∈ (runNormal (envs n) (iterApps envs apps0 n)).apps
      unfold runNormal
      split
      · exact ih.1
      · exact List.mem_append.mpr (Or.inl (List.mem_append.mpr (Or.inl
          (List.mem_append.mpr (Or.inl (List.mem_append.mpr (Or.inl ih.2)))))))
    exact ⟨hmem, keepLem (n + 1) _ hmem⟩

/-- A run environment for the C3/C4 witnesses: two discovered Steam games,
nothing else. -/
def envC4 : Env :=
  { nt := true, flatpak := false,
    steam := [("100", "Alpha"), ("200", "Beta")], epic := [], xbox := [],
    customList := [], shortcutsFolder := "",
    steamGrid := fun _ => none, epicGrid := fun _ => none,
    xboxGrid := fun _ => none, customGrid := fun _ => none,
    hashId := fun _ => "0", existsF := fun _ => false, isfileF := fun _ => false,
    readTarget := fun _ => none, createShortcut := fun _ => false }

def appKeptC4 : App := mkImportedApp "Alpha" "steam://rungameid/100" ""

def appManualC4 : App := mkImportedApp "Manual Tool" "C:\\tools\\manual.exe" ""

def appNewC4 : App := mkImportedApp "Beta" "steam://rungameid/200" ""

/-- Closed witness for `c3_unowned_survives`: a hand-added entry survives
two reconciliation runs. -/
theorem c3_unowned_survives_witness :
    appManualC4 ∈ iterApps (fun _ => envC4) [appKeptC4, appManualC4] 2 :=
  (c3_unowned_survives (fun _ => envC4) [appKeptC4, appManualC4] appManualC4
    (fun _ => (by decide : unownedCondB (mkCtx envC4) appManualC4 = true))
    (by decide) 2).1

/-! ### Claim C9 — shortcut deletion uses a plain string-prefix test -/

/-- Scenario for C9: the configured shortcuts folder is `C:\sc`; a
persisted command embeds (after the extraction arithmetic of
`_extract_shortcut_path_from_cmd`) the path `C:\sc2\evil.lnk`, which lives
in the sibling directory `C:\sc2` yet passes the `startswith` test. -/
def ctxC9 : Ctx :=
  { nt := true, steam := [], epic := [], xbox := [], customCmds := [],
    shortcutsFolder := "C:\\sc",
    existsF := fun _ => false,
    isfileF := fun _ => true,
    readTarget := fun p =>
      if p == "C:\\sc2\\evil.lnk" then
        some "com.epicgames.launcher://apps/GoneApp?action=launch" else none }

def appC9 : App := mkImportedApp "Evil" "cmd /c start \"\" \"XC:\\sc2\\evil.lnk\"" ""

/-- C9 counterexample: removal deletes the `.lnk` file
`C:\sc2\evil.lnk`, which is *not* inside the configured shortcuts folder
`C:\sc` (it is in the sibling directory `C:\sc2`, which merely shares the
folder's path as a string prefix), so the claim "never when it lies in any
other directory, including a sibling directory whose name shares the
configured folder's path as a string prefix" is false on this code. -/
theorem c9_counterexample :
    (processExistingApps ctxC9 [appC9]).deletedShortcuts = ["C:\\sc2\\evil.lnk"] ∧
    (processExistingApps ctxC9 [appC9]).removedEpic = [("Evil", "GoneApp")] ∧
    pyStartsWith "C:\\sc2\\evil.lnk" ("C:\\sc" ++ "\\") = false := by
  decide

/-- C9 (amended): removal logic deletes a shortcut-indirection file only
when a shortcuts folder is configured, the oracle reports the path as an
existing file, and the normalized path starts with the normalized folder
as a *string prefix* — a test that admits sibling directories whose names
extend the folder's path, and rejects every path not sharing that prefix. -/
theorem c9_amended (ctx : Ctx) (apps : List App) :
    ∀ p ∈ (processExistingApps ctx apps).deletedShortcuts,
      Ctx.folderN ctx ≠ "" ∧ pyStartsWith p (Ctx.folderN ctx) = true ∧
      ctx.isfileF p = true := by
  intro p hp
  rw [pea_deletedShortcuts] at hp
  obtain ⟨a, _, hdel⟩ := List.mem_filterMap.mp hp
  unfold appStep at hdel
  cases hc : classify ctx a <;> simp only [hc] at hdel <;> try cases hdel
  case shortcutEpicRemoved p0 a0 =>
    unfold deleteShortcutIfInFolder at hdel
    split at hdel
    · cases hdel
    · next hne =>
      split at hdel
      · next hcond =>
        rw [Bool.and_eq_true] at hcond
        cases hdel
        exact ⟨hne, hcond.1, hcond.2⟩
      · cases hdel

/-- Closed witness for `c9_amended` at the C9 scenario. -/
theorem c9_amended_witness :
    Ctx.folderN ctxC9 ≠ "" ∧
      pyStartsWith "C:\\sc2\\evil.lnk" (Ctx.folderN ctxC9) = true ∧
      ctxC9.isfileF "C:\\sc2\\evil.lnk" = true :=
  c9_amended ctxC9 [appC9] "C:\\sc2\\evil.lnk" (by decide)

/-! ### Claim C10 — disabling the Epic source removes imported Epic entries -/

/-- Model of `load_installed_epic_games` at its guard (line 603): an unset
manifests path or a missing directory yields no Epic titles; otherwise the
manifest scan result `found` is returned. -/
def loadInstalledEpicGames (manifestsPath : String) (isDir : Bool)
    (found : List (String × String)) : List (String × String) :=
  if manifestsPath = "" ∨ isDir = false then [] else found

/-- Model of `main` lines 1258-1260: Epic discovery runs only when the
manifests path is configured and the platform is Windows. -/
def mainInstalledEpic (manifestsPath : String) (nt : Bool) (isDir : Bool)
    (found : List (String × String)) : List (String × String) :=
  if manifestsPath ≠ "" ∧ nt then loadInstalledEpicGames manifestsPath isDir found
  else []

/-- C10 (confirmed): when the Epic source is disabled (no manifests path,
non-Windows platform, or missing manifests directory) the discovered Epic
set is empty, and reconciliation against an empty Epic set drops every
persisted entry whose command embeds the Epic protocol URI with an
extractable app name, reporting it removed and deleting its referenced
artwork file when that file exists. -/
theorem c10_epic_disabled (manifestsPath : String) (nt : Bool) (isDir : Bool)
    (found : List (String × String))
    (hdis : manifestsPath = "" ∨ nt = false ∨ isDir = false)
    (ctx : Ctx) (hepic : ctx.epic = [])
    (apps : List App) (app : App) (hmem : app ∈ apps)
    (hns : pyStartsWith (pyStrip app.cmd) steamRunPfx = false)
    (hep : pyContains (pyStrip app.cmd) epicProtoMark = true)
    (aName : String) (hname : epicNameOf (pyStrip app.cmd) = some aName)
    (hsc : Ctx.folderN ctx = "" ∨
      ∀ p, extractShortcutPathFromCmd ctx.nt (pyStrip app.cmd) = some p →
        pyStartsWith p (Ctx.folderN ctx) = false) :
    mainInstalledEpic manifestsPath nt isDir found = [] ∧
    (appStep ctx app).keepApp = false ∧
    (app.name, aName) ∈ (processExistingApps ctx apps).removedEpic ∧
    (app.imagePath ≠ "" → ctx.existsF app.imagePath = true →
      app.imagePath ∈ (processExistingApps ctx apps).deletedGrids) := by
  have hcls : classify ctx app = AppClass.epicRemoved aName := by
    rw [classify_eq_tail ctx app hsc]
    unfold classifyTail
    rw [if_neg (by simp [hns]), if_pos hep, hname]
    simp [Ctx.epicKeys, hepic]
  refine ⟨?_, ?_, ?_, ?_⟩
  · unfold mainInstalledEpic loadInstalledEpicGames
    rcases hdis with h | h | h <;> simp [h]
  · unfold appStep
    rw [hcls]
  · rw [pea_removedEpic]
    refine List.mem_filterMap.mpr ⟨app, hmem, ?_⟩
    unfold appStep
    rw [hcls]
  · intro hne hex
    rw [pea_deletedGrids]
    refine List.mem_filterMap.mpr ⟨app, hmem, ?_⟩
    unfold appStep
    rw [hcls]
    simp [hne, hex]

/-- Scenario for the C10 witness: a previously imported Epic entry while
the Epic source is disabled (non-Windows run). -/
def ctxC10 : Ctx :=
  { nt := true, steam := [("100", "Kept Game")], epic := [], xbox := [], customCmds := [],
    shortcutsFolder := "",
    existsF := fun p => p == "C:\\grids\\epic_OldEpic.png",
    isfileF := fun _ => false, readTarget := fun _ => none }

def appC10 : App :=
  mkImportedApp "Old Epic Game"
    "start \"\" \"com.epicgames.launcher://apps/OldEpic?action=launch&silent=true\""
    "C:\\grids\\epic_OldEpic.png"

/-- Closed witness for `c10_epic_disabled`. -/
theorem c10_epic_disabled_witness :
    mainInstalledEpic "C:\\manifests" false true [("OldEpic", "Old Epic Game")] = [] ∧
    (appStep ctxC10 appC10).keepApp = false ∧
    ("Old Epic Game", "OldEpic") ∈ (processExistingApps ctxC10 [appC10]).removedEpic ∧
    ("C:\\grids\\epic_OldEpic.png" : String) ∈
      (processExistingApps ctxC10 [appC10]).deletedGrids := by
  have h := c10_epic_disabled "C:\\manifests" false true [("OldEpic", "Old Epic Game")]
    (Or.inr (Or.inl rfl)) ctxC10 rfl [appC10] appC10 (by decide)
    (by decide) (by decide) "OldEpic" (by decide) (Or.inl (by decide))
  exact ⟨h.1, h.2.1, h.2.2.1, h.2.2.2 (by decide) (by decide)⟩

/-! ### Claim C7 — identity is the sole matching key; kept entries are
byte-for-byte identical -/

/-- `process_existing_apps` consults the Steam/Epic dictionaries only
through `in` (key membership), so classification is invariant under
display-name changes. -/
theorem classify_name_invariant (ctx : Ctx) (steam2 epic2 : List (String × String))
    (hs : steam2.map Prod.fst = ctx.steam.map Prod.fst)
    (he : epic2.map Prod.fst = ctx.epic.map Prod.fst) (a : App) :
    classify { ctx with steam := steam2, epic := epic2 } a = classify ctx a := by
  have hks : Ctx.steamKeys { ctx with steam := steam2, epic := epic2 } =
      Ctx.steamKeys ctx := by
    simp only [Ctx.steamKeys]; exact hs
  have hke : Ctx.epicKeys { ctx with steam := steam2, epic := epic2 } =
      Ctx.epicKeys ctx := by
    simp only [Ctx.epicKeys]; exact he
  have hfn : Ctx.folderN { ctx with steam := steam2, epic := epic2 } =
      Ctx.folderN ctx := rfl
  have hxk : Ctx.xboxKeys { ctx with steam := steam2, epic := epic2 } =
      Ctx.xboxKeys ctx := rfl
  unfold classify classifyTail
  simp only [hks, hke, hfn, hxk]

/-- Step effects are likewise invariant under display-name changes. -/
theorem appStep_name_invariant (ctx : Ctx) (steam2 epic2 : List (String × String))
    (hs : steam2.map Prod.fst = ctx.steam.map Prod.fst)
    (he : epic2.map Prod.fst = ctx.epic.map Prod.fst) (a : App) :
    appStep { ctx with steam := steam2, epic := epic2 } a = appStep ctx a := by
  have hex : ({ ctx with steam := steam2, epic := epic2 } : Ctx).existsF =
      ctx.existsF := rfl
  have hds : deleteShortcutIfInFolder { ctx with steam := steam2, epic := epic2 } =
      deleteShortcutIfInFolder ctx := by
    funext sp
    unfold deleteShortcutIfInFolder
    rfl
  unfold appStep
  simp only [classify_name_invariant ctx steam2 epic2 hs he a, hex, hds]

/-- C7 (confirmed): reconciliation output is a function of the discovered
identity sets only — replacing the Steam and Epic dictionaries by ones with
the same keys but different display names leaves the whole result (kept
apps, removals, deletions) unchanged — and a persisted Steam or Epic entry
whose extracted identity is present in the discovered set is kept in the
output as the very same record (same name, command, artwork reference and
structural fields), so an upstream rename causes neither removal+re-add
nor an artwork refresh. -/
theorem c7_identity_stability (ctx : Ctx) (steam2 epic2 : List (String × String))
    (hs : steam2.map Prod.fst = ctx.steam.map Prod.fst)
    (he : epic2.map Prod.fst = ctx.epic.map Prod.fst)
    (apps : List App) (app : App) (hmem : app ∈ apps)
    (hsc : Ctx.folderN ctx = "" ∨
      ∀ p, extractShortcutPathFromCmd ctx.nt (pyStrip app.cmd) = some p →
        pyStartsWith p (Ctx.folderN ctx) = false)
    (hkept : (pyStartsWith (pyStrip app.cmd) steamRunPfx = true ∧
        (Ctx.steamKeys ctx).contains (extractSteamId (pyStrip app.cmd)) = true) ∨
      (pyStartsWith (pyStrip app.cmd) steamRunPfx = false ∧
        pyContains (pyStrip app.cmd) epicProtoMark = true ∧
        ∃ a2, epicNameOf (pyStrip app.cmd) = some a2 ∧
          (Ctx.epicKeys ctx).contains a2 = true)) :
    processExistingApps { ctx with steam := steam2, epic := epic2 } apps =
      processExistingApps ctx apps ∧
    app ∈ (processExistingApps ctx apps).updatedApps := by
  constructor
  · unfold processExistingApps
    congr 1
    funext acc a
    unfold peaStep
    rw [appStep_name_invariant ctx steam2 epic2 hs he a]
  · rw [pea_updatedApps]
    refine List.mem_filter.mpr ⟨hmem, ?_⟩
    have hcls := classify_eq_tail ctx app hsc
    rcases hkept with ⟨hsw, hin⟩ | ⟨hsw, hin, a2, hn, hin2⟩
    · have hsk : classify ctx app = AppClass.steamKept (extractSteamId (pyStrip app.cmd)) := by
        rw [hcls]; unfold classifyTail; rw [if_pos hsw, if_pos hin]
      simp [appStep, hsk]
    · have hin2m : a2 ∈ Ctx.epicKeys ctx := by simpa using hin2
      have hek : classify ctx app = AppClass.epicKept a2 := by
        rw [hcls]; unfold classifyTail; rw [if_neg (by simp [hsw]), if_pos hin, hn]
        simp [hin2m]
      simp [appStep, hek]

/-- Scenario for the C7 witness: the same Steam identity `100` under two
different display names. -/
def ctxC7 : Ctx :=
  { nt := true, steam := [("100", "Old Name")], epic := [], xbox := [], customCmds := [],
    shortcutsFolder := "", existsF := fun _ => true, isfileF := fun _ => false,
    readTarget := fun _ => none }

def appC7 : App := mkImportedApp "Old Name" "steam://rungameid/100" "C:\\grids\\100.png"

/-- Closed witness for `c7_identity_stability`. -/
theorem c7_identity_stability_witness :
    processExistingApps { ctxC7 with steam := [("100", "New Name")], epic := [] } [appC7] =
      processExistingApps ctxC7 [appC7] ∧
    appC7 ∈ (processExistingApps ctxC7 [appC7]).updatedApps :=
  c7_identity_stability ctxC7 [("100", "New Name")] [] (by decide) (by decide)
    [appC7] appC7 (by decide) (Or.inl (by decide))
    (Or.inl ⟨by decide, by decide⟩)

/-! ### Claim C4 — output ordering

The spec claims the new apps list is `opaque ++ kept ++ added`.  The code
keeps all surviving entries (opaque and source-owned alike) in their
original persisted order and appends the additions, so an opaque entry that
follows a kept entry in `apps.json` also follows it in the output. -/

/-- C4 counterexample: starting from `[kept Steam entry, opaque entry]`,
the run with one new Steam game produces
`[kept Steam entry, opaque entry, added entry]` — the opaque entry does
*not* precede the kept entry, contradicting the claimed
`opaque ++ kept ++ added` grouping. -/
theorem c4_counterexample :
    (runNormal envC4 [appKeptC4, appManualC4]).apps =
      [appKeptC4, appManualC4, appNewC4] ∧
    unownedCondB (mkCtx envC4) appManualC4 = true ∧
    classify (mkCtx envC4) appKeptC4 = AppClass.steamKept "100" ∧
    (runNormal envC4 [appKeptC4, appManualC4]).apps ≠
      [appManualC4, appKeptC4, appNewC4] := by
  decide

/-- C4 (amended): when changes exist, the new apps list is the kept
entries — opaque and source-owned alike, in their original persisted
order — followed by the newly added entries grouped by source in the order
Steam, Epic, Xbox, custom. -/
theorem c4_amended (env : Env) (apps0 : List App)
    (h : (runNormal env apps0).saved = true) :
    (runNormal env apps0).apps =
      apps0.filter (fun a => (appStep (mkCtx env) a).keepApp)
        ++ addNewGames env (newSteamOf env apps0)
        ++ addEpicGames env (newEpicOf env apps0)
        ++ addXboxGames env (newXboxOf env apps0)
        ++ addCustomGames env (existingCmdsOf env apps0) := by
  unfold runNormal at h ⊢
  split at h
  · simp at h
  · next hcond =>
    rw [if_neg hcond]
    simp only [peaOfRun, pea_updatedApps]

/-- Closed witness for `c4_amended` at the C4 scenario. -/
theorem c4_amended_witness :
    (runNormal envC4 [appKeptC4, appManualC4]).apps =
      [appKeptC4, appManualC4].filter (fun a => (appStep (mkCtx envC4) a).keepApp)
        ++ addNewGames envC4 (newSteamOf envC4 [appKeptC4, appManualC4])
        ++ addEpicGames envC4 (newEpicOf envC4 [appKeptC4, appManualC4])
        ++ addXboxGames envC4 (newXboxOf envC4 [appKeptC4, appManualC4])
        ++ addCustomGames envC4 (existingCmdsOf envC4 [appKeptC4, appManualC4]) :=
  c4_amended envC4 [appKeptC4, appManualC4] (by decide)

/-! ### Claim C8 — artwork fallback tiers (`main.py` lines 232-330)

`fetch_grid` tries SteamGridDB (only with an API key), then the Steam CDN
URLs in order: high-resolution cover, standard cover, wide header tile.
The network is modelled by two oracles: `sgdbFetch` returns the local path
`fetch_grid_from_steamgriddb` would produce for an app id (or `none` on
any failure), and `http` returns the response for one CDN URL —
`none` for a request exception, otherwise the content length and whether
the payload decodes as an image, which `_download_steam_cdn_image`
validates before saving. -/

inductive GridTier where
  | sgdb
  | cdnHi
  | cdnStd
  | cdnHeader
deriving DecidableEq, Repr

structure CdnResp where
  contentLen : Nat
  validImage : Bool
deriving DecidableEq, Repr

def steamCdnLibraryUrl (i : String) : String :=
  "https://cdn.cloudflare.steamstatic.com/steam/apps/" ++ i ++ "/library_600x900_2x.jpg"

def steamCdnLibraryFallbackUrl (i : String) : String :=
  "https://cdn.cloudflare.steamstatic.com/steam/apps/" ++ i ++ "/library_600x900.jpg"

def steamCdnHeaderUrl (i : String) : String :=
  "https://cdn.cloudflare.steamstatic.com/steam/apps/" ++ i ++ "/header.jpg"

/-- Model of `_download_steam_cdn_image` (line 292): reject request
failures, payloads under 500 bytes, and undecodable images; otherwise save
under `{grids_folder}/{app_id}.png`. -/
def downloadSteamCdnImage (http : String → Option CdnResp)
    (url i gridsFolder : String) : Option String :=
  match http url with
  | none => none
  | some r =>
    if r.contentLen < 500 then none
    else if r.validImage then some (joinPath true gridsFolder (i ++ ".png"))
    else none

/-- The CDN URL sequence of `fetch_grid_from_steam_cdn` (line 313),
tagged with tier names. -/
def cdnTierUrls (i : String) : List (GridTier × String) :=
  [(GridTier.cdnHi, steamCdnLibraryUrl i),
   (GridTier.cdnStd, steamCdnLibraryFallbackUrl i),
   (GridTier.cdnHeader, steamCdnHeaderUrl i)]

/-- Model of the `for url_template in (...)` loop of
`fetch_grid_from_steam_cdn`, also recording which tiers were attempted. -/
def fetchGridFromSteamCdnLog (http : String → Option CdnResp) (i folder : String) :
    List (GridTier × String) → Option String × List GridTier
  | [] => (none, [])
  | (t, u) :: rest =>
    match downloadSteamCdnImage http u i folder with
    | some p => (some p, [t])
    | none =>
      let r := fetchGridFromSteamCdnLog http i folder rest
      (r.1, t :: r.2)

/-- Model of `fetch_grid` (line 322): SteamGridDB first when an API key is
supplied (`api_key and api_key.strip()`), the Steam CDN chain otherwise or
on SteamGridDB failure.  The second component records the tiers attempted
in order. -/
def fetchGrid (apiKey : String) (sgdbFetch : String → Option String)
    (http : String → Option CdnResp) (i folder : String) :
    Option String × List GridTier :=
  if apiKey ≠ "" ∧ pyStrip apiKey ≠ "" then
    match sgdbFetch i with
    | some p => (some p, [GridTier.sgdb])
    | none =>
      let r := fetchGridFromSteamCdnLog http i folder (cdnTierUrls i)
      (r.1, GridTier.sgdb :: r.2)
  else fetchGridFromSteamCdnLog http i folder (cdnTierUrls i)

/-- Spec-side tier sequence: the credentialed provider first (only when a
credential is supplied), then the three vendor CDN tiers. -/
def tierSequence (apiKey : String) : List GridTier :=
  (if apiKey ≠ "" ∧ pyStrip apiKey ≠ "" then [GridTier.sgdb] else [])
    ++ [GridTier.cdnHi, GridTier.cdnStd, GridTier.cdnHeader]

/-- Spec-side outcome of attempting one tier. -/
def tierOutcome (sgdbFetch : String → Option String)
    (http : String → Option CdnResp) (i folder : String) : GridTier → Option String
  | GridTier.sgdb => sgdbFetch i
  | GridTier.cdnHi => downloadSteamCdnImage http (steamCdnLibraryUrl i) i folder
  | GridTier.cdnStd => downloadSteamCdnImage http (steamCdnLibraryFallbackUrl i) i folder
  | GridTier.cdnHeader => downloadSteamCdnImage http (steamCdnHeaderUrl i) i folder

/-- Spec-side strict fallback scan: attempt tiers in order, each only if
every earlier tier yielded nothing; also record the attempts. -/
def firstSomeAndLog (f : GridTier → Option String) :
    List GridTier → Option String × List GridTier
  | [] => (none, [])
  | t :: rest =>
    match f t with
    | some p => (some p, [t])
    | none =>
      let r := firstSomeAndLog f rest
      (r.1, t :: r.2)

/-- Unfolding lemma for the fallback scan. -/
theorem firstSomeAndLog_cons (f : GridTier → Option String) (t : GridTier)
    (rest : List GridTier) :
    firstSomeAndLog f (t :: rest) =
      (match f t with
       | some p => (some p, [t])
       | none => ((firstSomeAndLog f rest).1, t :: (firstSomeAndLog f rest).2)) := rfl

/-- C8 (confirmed): `fetch_grid` equals the strict in-order fallback scan
over the tier sequence — the credentialed provider is attempted exactly
when a credential is supplied, each tier is attempted only if all previous
tiers yielded nothing, the result is the first success, and when every
tier fails the result is absence and the entry built by the add functions
carries an empty artwork reference. -/
theorem c8_tier_order (apiKey : String) (sgdbFetch : String → Option String)
    (http : String → Option CdnResp) (i folder nm cmd : String) :
    fetchGrid apiKey sgdbFetch http i folder =
      firstSomeAndLog (tierOutcome sgdbFetch http i folder) (tierSequence apiKey) ∧
    ((∀ t ∈ tierSequence apiKey, tierOutcome sgdbFetch http i folder t = none) →
      (fetchGrid apiKey sgdbFetch http i folder).1 = none ∧
      (mkImportedApp nm cmd
        ((fetchGrid apiKey sgdbFetch http i folder).1.getD "")).imagePath = "") := by
  have hcdn : fetchGridFromSteamCdnLog http i folder (cdnTierUrls i) =
      firstSomeAndLog (tierOutcome sgdbFetch http i folder)
        [GridTier.cdnHi, GridTier.cdnStd, GridTier.cdnHeader] := by
    simp only [cdnTierUrls, fetchGridFromSteamCdnLog, firstSomeAndLog, tierOutcome]
  have hmain : fetchGrid apiKey sgdbFetch http i folder =
      firstSomeAndLog (tierOutcome sgdbFetch http i folder) (tierSequence apiKey) := by
    unfold fetchGrid tierSequence
    by_cases hk : apiKey ≠ "" ∧ pyStrip apiKey ≠ ""
    · rw [if_pos hk, if_pos hk]
      cases hs : sgdbFetch i with
      | some p =>
        simp only [List.singleton_append, firstSomeAndLog_cons, tierOutcome, hs]
      | none =>
        simp only [List.singleton_append, firstSomeAndLog_cons, tierOutcome, hs, hcdn]
    · rw [if_neg hk, if_neg hk]
      simp only [List.nil_append, hcdn]
  refine ⟨hmain, fun hall => ?_⟩
  have hnone : (fetchGrid apiKey sgdbFetch http i folder).1 = none := by
    rw [hmain]
    have : ∀ (l : List GridTier),
        (∀ t ∈ l, tierOutcome sgdbFetch http i folder t = none) →
        (firstSomeAndLog (tierOutcome sgdbFetch http i folder) l).1 = none := by
      intro l
      induction l with
      | nil => intro _; rfl
      | cons t rest ih =>
        intro hl
        have ht := hl t (List.mem_cons_self t rest)
        simp only [firstSomeAndLog, ht]
        exact ih (fun t2 h2 => hl t2 (List.mem_cons_of_mem t h2))
    exact this _ hall
  exact ⟨hnone, by rw [hnone]; rfl⟩

/-- Closed witness for `c8_tier_order`: a credentialed run in which every
tier fails. -/
theorem c8_tier_order_witness :
    fetchGrid "key" (fun _ => none) (fun _ => none) "100" "C:\\grids" =
      firstSomeAndLog (tierOutcome (fun _ => none) (fun _ => none) "100" "C:\\grids")
        (tierSequence "key") ∧
    (fetchGrid "key" (fun _ => none) (fun _ => none) "100" "C:\\grids").1 = none ∧
    (mkImportedApp "G" "steam://rungameid/100"
      ((fetchGrid "key" (fun _ => none) (fun _ => none) "100" "C:\\grids").1.getD
        "")).imagePath = "" := by
  have h := c8_tier_order "key" (fun _ => none) (fun _ => none) "100" "C:\\grids"
    "G" "steam://rungameid/100"
  refine ⟨h.1, ?_, ?_⟩
  · exact (h.2 (by decide)).1
  · exact (h.2 (by decide)).2

/-! ### Claim C5 — reset mode (`main.py` lines 383-412, 1072-1205)

`get_sunshine_config` distinguishes three file states: a missing file
(initialized to an empty document), a file whose contents fail
`json.load` or are not a dict (both re-raised as errors), and a
well-formed document, whose missing `apps`/`env` keys are normalized away
(folded into the constructor arguments here).  `remove_all_apps_from_config`
starts by loading through it, so a malformed file aborts reset. -/

inductive ConfFile where
  | missing
  | malformed
  | valid (apps : List App) (envField : String)
deriving DecidableEq, Repr

/-- Model of `get_sunshine_config`: the apps list and the opaque `env`
field, or the load error. -/
def getSunshineConfig : ConfFile → Except String (List App × String)
  | ConfFile.missing => Except.ok ([], "")
  | ConfFile.malformed => Except.error "Invalid JSON in Sunshine config file"
  | ConfFile.valid apps e => Except.ok (apps, e)

/-- The platform cases of `get_stock_default_apps`
(`os.name == "nt"`, `sys.platform == "darwin"`, else). -/
inductive Plat where
  | windows
  | darwin
  | linux
deriving DecidableEq, Repr

/-- The `_app` helper of `get_stock_default_apps` (line 1082): fixed
structural fields, `prep-cmd` only when a prep command is given. -/
def stockApp (name cmd output detached prepDo prepUndo : String) : App :=
  { name := name, cmd := cmd, output := output, detached := detached,
    elevated := "false", hidden := "true", waitAll := "true", exitTimeout := "5",
    imagePath := "",
    prepCmd := if prepDo ≠ "" ∨ prepUndo ≠ "" then [(prepDo, prepUndo, false)] else [],
    extra := [] }

/-- Model of `get_stock_default_apps` (line 1072). -/
def getStockDefaultApps (plat : Plat) (host : String) : List App :=
  let h0 := if host = "" then "sunshine" else host
  let h1 := pyLower (pyStrip h0)
  let h := if h1 = "sunshine" ∨ h1 = "apollo" then h1 else "sunshine"
  let desktop := stockApp "Desktop" "" "" "" "" ""
  let steam :=
    match plat with
    | Plat.windows =>
      stockApp "Steam Big Picture" "" "" "steam://open/bigpicture"
        "steam://close/bigpicture" "steam://open/bigpicture"
    | Plat.darwin =>
      stockApp "Steam Big Picture" "" "" "open steam://open/bigpicture"
        "open steam://close/bigpicture" "open steam://open/bigpicture"
    | Plat.linux =>
      stockApp "Steam Big Picture" "" "" "steam steam://open/bigpicture"
        "steam steam://close/bigpicture" "steam steam://open/bigpicture"
  if h = "apollo" then [desktop, steam, stockApp "Virtual Display" "" "" "" "" ""]
  else [desktop, steam]

/-- What one reset run deletes and saves. -/
structure ResetOutcome where
  removedCount : Nat
  deletedGrids : List String
  deletedShortcuts : List String
  savedApps : List App
deriving DecidableEq, Repr

/-- Model of `remove_all_apps_from_config` (line 1142): load (propagating
load errors), delete referenced thumbnails whose parent directory is the
grids folder, delete every `.png` in the grids folder listing, delete every
`.lnk` in the shortcuts folder listing, and save the stock defaults.
`existsF` models `os.path.exists`; `gridsIsDir`/`shortcutsIsDir` model
`os.path.isdir`; the listings model `os.listdir`. -/
def removeAllAppsFromConfig (plat : Plat) (nt : Bool) (file : ConfFile)
    (gridsFolder host shortcutsFolder : String) (existsF : String → Bool)
    (gridsIsDir : Bool) (gridsListing : List String)
    (shortcutsIsDir : Bool) (shortcutsListing : List String) :
    Except String ResetOutcome :=
  match getSunshineConfig file with
  | Except.error e => Except.error e
  | Except.ok (apps, _envField) =>
    let gridsAbs := if gridsFolder ≠ "" then abspathModel nt gridsFolder else ""
    let perApp := apps.filterMap fun a =>
      if a.imagePath ≠ "" ∧ existsF a.imagePath then
        if gridsAbs ≠ "" ∧ abspathModel nt (dirnameOf nt a.imagePath) = gridsAbs then
          some a.imagePath
        else none
      else none
    let pngs :=
      if gridsIsDir then
        (gridsListing.filter (fun n => pyEndsWith (pyLower n) ".png")).map
          (fun n => joinPath nt gridsFolder n)
      else []
    let lnks :=
      if shortcutsFolder ≠ "" ∧ shortcutsIsDir then
        (shortcutsListing.filter (fun n => pyEndsWith (pyLower n) ".lnk")).map
          (fun n => joinPath nt shortcutsFolder n)
      else []
    Except.ok
      { removedCount := apps.length, deletedGrids := perApp ++ pngs,
        deletedShortcuts := lnks, savedApps := getStockDefaultApps plat host }

/-- C5 counterexample: against a present-but-malformed configuration file,
reset does *not* succeed — `get_sunshine_config` re-raises the JSON decode
error and `remove_all_apps_from_config` propagates it, so the claim that
reset "succeeds (falling back to an empty base document)" for every prior
configuration state is false on this code. -/
theorem c5_counterexample :
    (removeAllAppsFromConfig Plat.windows true ConfFile.malformed "C:\\grids"
      "sunshine" "" (fun _ => true) true ["100.png"] false []).isOk = false := by
  decide

/-- C5 (amended): reset succeeds for a missing or well-formed prior
configuration (a malformed file is a fatal load error instead of falling
back to an empty document); whenever it succeeds the saved apps list is
exactly the fixed stock set of the configured host variant — Desktop and
Steam Big Picture for sunshine, plus Virtual Display for apollo,
independent of the prior apps — and every `.png` file in the artwork
directory listing is deleted. -/
theorem c5_amended (plat : Plat) (nt : Bool) (file : ConfFile)
    (gridsFolder host shortcutsFolder : String) (existsF : String → Bool)
    (gridsListing : List String) (shortcutsIsDir : Bool)
    (shortcutsListing : List String)
    (hfile : file ≠ ConfFile.malformed) :
    (∃ r, removeAllAppsFromConfig plat nt file gridsFolder host shortcutsFolder
        existsF true gridsListing shortcutsIsDir shortcutsListing = Except.ok r ∧
      r.savedApps = getStockDefaultApps plat host ∧
      (∀ n ∈ gridsListing, pyEndsWith (pyLower n) ".png" = true →
        joinPath nt gridsFolder n ∈ r.deletedGrids)) ∧
    getStockDefaultApps Plat.windows "sunshine" =
      [stockApp "Desktop" "" "" "" "" "",
       stockApp "Steam Big Picture" "" "" "steam://open/bigpicture"
         "steam://close/bigpicture" "steam://open/bigpicture"] ∧
    getStockDefaultApps Plat.windows "apollo" =
      [stockApp "Desktop" "" "" "" "" "",
       stockApp "Steam Big Picture" "" "" "steam://open/bigpicture"
         "steam://close/bigpicture" "steam://open/bigpicture",
       stockApp "Virtual Display" "" "" "" "" ""] := by
  refine ⟨?_, by decide, by decide⟩
  have hpng : ∀ (r : ResetOutcome) (perApp : List String),
      r.deletedGrids = perApp ++ (gridsListing.filter
          (fun n => pyEndsWith (pyLower n) ".png")).map
          (fun n => joinPath nt gridsFolder n) →
      ∀ n ∈ gridsListing, pyEndsWith (pyLower n) ".png" = true →
        joinPath nt gridsFolder n ∈ r.deletedGrids := by
    intro r perApp hr n hn hp
    rw [hr]
    refine List.mem_append.mpr (Or.inr ?_)
    exact List.mem_map.mpr ⟨n, List.mem_filter.mpr ⟨hn, hp⟩, rfl⟩
  cases file with
  | malformed => exact absurd rfl hfile
  | missing =>
    refine ⟨_, rfl, rfl, ?_⟩
    exact hpng _ _ rfl
  | valid apps e =>
    refine ⟨_, rfl, rfl, ?_⟩
    exact hpng _ _ rfl

/-- Closed witness for `c5_amended`: reset against a populated valid
configuration. -/
theorem c5_amended_witness :
    (∃ r, removeAllAppsFromConfig Plat.windows true
        (ConfFile.valid [appC7, appManualC4] "ENVDATA") "C:\\grids" "apollo" ""
        (fun _ => true) true ["100.png", "leftover.PNG", "note.txt"] false [] =
          Except.ok r ∧
      r.savedApps = getStockDefaultApps Plat.windows "apollo" ∧
      (∀ n ∈ ["100.png", "leftover.PNG", "note.txt"],
        pyEndsWith (pyLower n) ".png" = true →
        joinPath true "C:\\grids" n ∈ r.deletedGrids)) ∧
    getStockDefaultApps Plat.windows "sunshine" =
      [stockApp "Desktop" "" "" "" "" "",
       stockApp "Steam Big Picture" "" "" "steam://open/bigpicture"
         "steam://close/bigpicture" "steam://open/bigpicture"] ∧
    getStockDefaultApps Plat.windows "apollo" =
      [stockApp "Desktop" "" "" "" "" "",
       stockApp "Steam Big Picture" "" "" "steam://open/bigpicture"
         "steam://close/bigpicture" "steam://open/bigpicture",
       stockApp "Virtual Display" "" "" "" "" ""] :=
  c5_amended Plat.windows true (ConfFile.valid [appC7, appManualC4] "ENVDATA")
    "C:\\grids" "apollo" "" (fun _ => true)
    ["100.png", "leftover.PNG", "note.txt"] false [] (by decide)

/-! ### Claim C6 — `save_sunshine_config` (`main.py` lines 414-466)

The observable file-system states of one save are modelled as a trace.
The file system maps paths to contents (`none` = absent).  The source
first copies the existing file to `path + ".backup"` (`shutil.copy2`),
then opens the target with mode `'w'` — which truncates it — and
`json.dump` streams the new serialization into it.  The trace therefore
contains, after the backup state, one state per written prefix of the new
content (`k = 0` is the truncation); the last state is the completed
write.  The permission-fallback paths (errno 13) relocate the backup but
do not change this ordering and are not modelled. -/

def FileSys : Type := String → Option String

/-- Overwrite one path's contents. -/
def fsWrite (fs : FileSys) (p v : String) : FileSys :=
  fun q => if q = p then some v else fs q

/-- First `k` characters of the serialized document. -/
def takeStr (s : String) (k : Nat) : String :=
  ⟨s.data.take k⟩

/-- The file-system states produced by `save_sunshine_config path config`,
in order: after the backup copy (made only when the target exists), then
after each write step of the in-place rewrite. -/
def saveTrace (path newContent : String) (fs0 : FileSys) : List FileSys :=
  let backupPath := path ++ ".backup"
  let afterBackup :=
    match fs0 path with
    | some old => fsWrite fs0 backupPath old
    | none => fs0
  afterBackup ::
    (List.range (newContent.length + 1)).map
      (fun k => fsWrite afterBackup path (takeStr newContent k))

/-- The empty file system used by the concrete scenarios. -/
def fsEmpty : FileSys := fun _ => none

/-- The C6 scenario: `apps.json` holds `OLDDATA` and the new serialization
is `NEWDATA2`. -/
def fsC6 : FileSys := fsWrite fsEmpty "apps.json" "OLDDATA"

/-- C6 counterexample: the claim says the old file content remains intact
until the new content is fully written.  In the modelled trace the state
right after `open(path, 'w')` (index 1, write prefix of length 0) shows the
target truncated to `""` — neither the old content nor the new content —
while the new content is not yet fully written, so the save is not atomic
from the caller's perspective and an interruption there leaves the target
half-written. -/
theorem c6_counterexample :
    ((saveTrace "apps.json" "NEWDATA2" fsC6).getD 1 fsEmpty) "apps.json" = some "" ∧
    some "" ≠ (some "OLDDATA" : Option String) ∧
    some "" ≠ (some "NEWDATA2" : Option String) ∧
    fsC6 "apps.json" = some "OLDDATA" := by
  refine ⟨?_, by decide, by decide, by decide⟩
  rfl

/-- C6 (amended): the backup copy is made before any write to the target,
so when the target exists, every state of the save trace from the backup
step on holds the prior contents at `path + ".backup"` — an I/O failure at
any later step leaves the prior version recoverable from the backup — and
the final state holds exactly the new content at the target.  The write
itself is in place (truncate, then stream), not atomic: intermediate
states expose a partially written target, as the counterexample shows. -/
theorem c6_amended (path newContent old : String) (fs0 : FileSys)
    (hold : fs0 path = some old) (hne : path ++ ".backup" ≠ path) :
    (∀ s ∈ saveTrace path newContent fs0, s (path ++ ".backup") = some old) ∧
    ((saveTrace path newContent fs0).getD (newContent.length + 1) fsEmpty) path =
      some newContent := by
  constructor
  · intro s hs
    simp only [saveTrace, hold] at hs
    rcases List.mem_cons.mp hs with h | h
    · rw [h, fsWrite]
      simp
    · obtain ⟨k, _, hk⟩ := List.mem_map.mp h
      rw [← hk]
      unfold fsWrite
      rw [if_neg hne]
      simp
  · simp only [saveTrace, hold]
    have hidx : ∀ (f : Nat → FileSys),
        ((fsWrite fs0 (path ++ ".backup") old ::
          (List.range (newContent.length + 1)).map f).getD (newContent.length + 1)
            fsEmpty) = f newContent.length := by
      intro f
      have hlen : newContent.length < newContent.length + 1 := Nat.lt_succ_self _
      have : ((List.range (newContent.length + 1)).map f).getD newContent.length
          fsEmpty = f newContent.length := by
        rw [List.getD_eq_getElem?_getD, List.getElem?_map, List.getElem?_range hlen]
        rfl
      simp only [List.getD_cons_succ]
      exact this
    rw [hidx]
    unfold fsWrite takeStr
    simp only [if_pos rfl, Option.some.injEq]
    rw [show newContent.length = newContent.data.length from rfl, List.take_length]
    rw [if_pos trivial]

/-- Closed witness for `c6_amended` at the C6 scenario. -/
theorem c6_amended_witness :
    (∀ s ∈ saveTrace "apps.json" "NEWDATA2" fsC6,
      s ("apps.json" ++ ".backup") = some "OLDDATA") ∧
    ((saveTrace "apps.json" "NEWDATA2" fsC6).getD ("NEWDATA2".length + 1) fsEmpty)
      "apps.json" = some "NEWDATA2" :=
  c6_amended "apps.json" "NEWDATA2" "OLDDATA" fsC6 (by decide) (by decide)

/-! ### Claim C1 — no-op short-circuit and idempotence

The short-circuit (line 1306) holds unconditionally.  Idempotence of the
full run depends on the classifier recognizing the commands the add
functions write.  On Windows with no shortcuts folder the commands round
trip (`steam://rungameid/{id}`, `start "" "com.epicgames.launcher://..."`,
the normalized Xbox executable path, the custom command), provided the
identities are well formed; `wellFormedEnvB` captures exactly those
round-trip facts.  On other platforms the Steam wrapper commands
(`steam steam://...`, `flatpak run ...`) do not start with the Steam
protocol prefix, so a second run re-adds every Steam title — the
counterexample below. -/

/-- Well-formedness of a run environment for the idempotence statement:
Windows, no shortcuts folder, and every discovered identity's generated
command round-trips through the classifier's string tests. -/
def wellFormedEnvB (env : Env) : Bool :=
  env.nt && (env.shortcutsFolder == "")
  && env.steam.all (fun p =>
      let c := steamCmdStr env p.1
      (pyStrip c == c) && pyStartsWith c steamRunPfx && (extractSteamId c == p.1))
  && env.epic.all (fun p =>
      let c := epicLaunchCmd env.nt p.1
      (pyStrip c == c) && !(pyStartsWith c steamRunPfx)
        && pyContains c epicProtoMark && (epicNameOf c == some p.1))
  && env.xbox.all (fun p =>
      (pyStrip p.1 == p.1) && !(pyStartsWith p.1 steamRunPfx)
        && !(pyContains p.1 epicProtoMark)
        && pyContainsChar p.1 (sepOf env.nt) && (normpath env.nt p.1 == p.1))
  && env.customList.all (fun g =>
      (g.cmd != "") && (pyStrip g.cmd == g.cmd)
        && !(pyStartsWith g.cmd steamRunPfx) && !(pyContains g.cmd epicProtoMark))

/-- The well-formedness facts in propositional form. -/
structure WFFacts (env : Env) : Prop where
  hnt : env.nt = true
  hsf : env.shortcutsFolder = ""
  hS : ∀ p ∈ env.steam, pyStrip (steamCmdStr env p.1) = steamCmdStr env p.1 ∧
    pyStartsWith (steamCmdStr env p.1) steamRunPfx = true ∧
    extractSteamId (steamCmdStr env p.1) = p.1
  hE : ∀ p ∈ env.epic, pyStrip (epicLaunchCmd env.nt p.1) = epicLaunchCmd env.nt p.1 ∧
    pyStartsWith (epicLaunchCmd env.nt p.1) steamRunPfx = false ∧
    pyContains (epicLaunchCmd env.nt p.1) epicProtoMark = true ∧
    epicNameOf (epicLaunchCmd env.nt p.1) = some p.1
  hX : ∀ p ∈ env.xbox, pyStrip p.1 = p.1 ∧
    pyStartsWith p.1 steamRunPfx = false ∧ pyContains p.1 epicProtoMark = false ∧
    pyContainsChar p.1 (sepOf env.nt) = true ∧ normpath env.nt p.1 = p.1
  hC : ∀ g ∈ env.customList, g.cmd ≠ "" ∧ pyStrip g.cmd = g.cmd ∧
    pyStartsWith g.cmd steamRunPfx = false ∧ pyContains g.cmd epicProtoMark = false

theorem wf_facts (env : Env) (h : wellFormedEnvB env = true) : WFFacts env := by
  unfold wellFormedEnvB at h
  simp only [Bool.and_eq_true, List.all_eq_true, beq_iff_eq, Bool.not_eq_true',
    bne_iff_ne, ne_eq] at h
  obtain ⟨⟨⟨⟨⟨hnt, hsf⟩, hS⟩, hE⟩, hX⟩, hC⟩ := h
  refine ⟨hnt, hsf, ?_, ?_, ?_, ?_⟩
  · intro p hp
    have hh := hS p hp
    exact ⟨hh.1.1, hh.1.2, hh.2⟩
  · intro p hp
    have hh := hE p hp
    exact ⟨hh.1.1.1, hh.1.1.2, hh.1.2, hh.2⟩
  · intro p hp
    have hh := hX p hp
    exact ⟨hh.1.1.1.1, hh.1.1.1.2, hh.1.1.2, hh.1.2, hh.2⟩
  · intro g hg
    have hh := hC g hg
    exact ⟨hh.1.1.1, hh.1.1.2, hh.1.2, hh.2⟩

/-- Kept entries report no removal. -/
theorem keep_true_rem_none (ctx : Ctx) (a : App)
    (h : (appStep ctx a).keepApp = true) :
    (appStep ctx a).remSteam = none ∧ (appStep ctx a).remEpic = none := by
  unfold appStep at *
  cases hc : classify ctx a <;> simp [hc] at h ⊢

/-- Dropped entries report a removal. -/
theorem keep_false_has_rem (ctx : Ctx) (a : App)
    (h : (appStep ctx a).keepApp = false) :
    (appStep ctx a).remSteam ≠ none ∨ (appStep ctx a).remEpic ≠ none := by
  unfold appStep at *
  cases hc : classify ctx a <;> simp [hc] at h ⊢

/-- Classification of the app `add_new_games` writes, when the command
round-trips. -/
theorem classify_steam_add (ctx : Ctx) (hfol : Ctx.folderN ctx = "")
    (nm c img i : String)
    (hstrip : pyStrip c = c) (hsw : pyStartsWith c steamRunPfx = true)
    (hext : extractSteamId c = i) (hmem : i ∈ Ctx.steamKeys ctx) :
    classify ctx (mkImportedApp nm c img) = AppClass.steamKept i := by
  rw [classify_eq_tail _ _ (Or.inl hfol)]
  show classifyTail ctx (pyStrip c) _ = _
  simp only [classifyTail, hstrip, hsw, if_true, hext]
  rw [if_pos (by simpa using hmem)]

/-- Classification of the app `add_epic_games` writes (no shortcuts
folder), when the command round-trips. -/
theorem classify_epic_add (ctx : Ctx) (hfol : Ctx.folderN ctx = "")
    (nm c img a : String)
    (hstrip : pyStrip c = c) (hsw : pyStartsWith c steamRunPfx = false)
    (hin : pyContains c epicProtoMark = true)
    (hname : epicNameOf c = some a) (hmem : a ∈ Ctx.epicKeys ctx) :
    classify ctx (mkImportedApp nm c img) = AppClass.epicKept a := by
  rw [classify_eq_tail _ _ (Or.inl hfol)]
  show classifyTail ctx (pyStrip c) _ = _
  simp only [classifyTail, hstrip, hsw, hin, hname, Bool.false_eq_true, if_false, if_true]
  rw [if_pos (by simpa using hmem)]

/-- Classification of the app `add_xbox_games` writes (no shortcuts
folder): the discovered executable path itself. -/
theorem classify_xbox_add (ctx : Ctx) (hfol : Ctx.folderN ctx = "")
    (nm img k : String)
    (hstrip : pyStrip k = k) (hsw : pyStartsWith k steamRunPfx = false)
    (hin : pyContains k epicProtoMark = false)
    (hsep : pyContainsChar k (sepOf ctx.nt) = true) (hnp : normpath ctx.nt k = k)
    (hmem : k ∈ Ctx.xboxKeys ctx) :
    classify ctx (mkImportedApp nm k img) = AppClass.xboxKept k := by
  rw [classify_eq_tail _ _ (Or.inl hfol)]
  simp only [show (mkImportedApp nm k img).cmd = k from rfl]
  simp only [hstrip, hsep, if_true, hnp, classifyTail, hsw, hin, Bool.false_eq_true,
    if_false]
  rw [if_pos (by simpa using hmem)]

/-- The chain's possible outcomes for a command that is neither
Steam- nor Epic-shaped: all of them keep the entry. -/
theorem classifyTail_cases_not_steam_epic (ctx : Ctx) (cmd cmdNorm : String)
    (hsw : pyStartsWith cmd steamRunPfx = false)
    (hin : pyContains cmd epicProtoMark = false) :
    classifyTail ctx cmd cmdNorm = AppClass.xboxKept cmdNorm ∨
    classifyTail ctx cmd cmdNorm = AppClass.xboxKept cmd ∨
    classifyTail ctx cmd cmdNorm = AppClass.customKept ∨
    classifyTail ctx cmd cmdNorm = AppClass.unowned := by
  unfold classifyTail
  rw [if_neg (by simp [hsw]), if_neg (by simp [hin])]
  by_cases h1 : (Ctx.xboxKeys ctx).contains cmdNorm = true
  · left; rw [if_pos h1]
  · rw [if_neg h1]
    by_cases h2 : (Ctx.xboxKeys ctx).contains cmd = true
    · right; left; rw [if_pos h2]
    · rw [if_neg h2]
      by_cases h3 : ctx.customCmds.contains cmd = true
      · right; right; left; rw [if_pos h3]
      · right; right; right; rw [if_neg h3]

/-- Any entry whose command is neither Steam- nor Epic-shaped is kept. -/
theorem keep_of_not_steam_epic (ctx : Ctx) (app : App)
    (hfol : Ctx.folderN ctx = "")
    (hsw : pyStartsWith (pyStrip app.cmd) steamRunPfx = false)
    (hin : pyContains (pyStrip app.cmd) epicProtoMark = false) :
    (appStep ctx app).keepApp = true := by
  have htail := classify_eq_tail ctx app (Or.inl hfol)
  rcases classifyTail_cases_not_steam_epic ctx (pyStrip app.cmd)
      (if pyContainsChar (pyStrip app.cmd) (sepOf ctx.nt) = true then
        normpath ctx.nt (pyStrip app.cmd) else pyStrip app.cmd) hsw hin with
    h | h | h | h <;>
  · have hc := htail.trans h
    simp [appStep, hc]

/-- Key-membership in an association list makes `lookup` succeed. -/
theorem lookup_isSome_of_mem (l : List (String × String)) (a : String)
    (h : a ∈ l.map Prod.fst) : (List.lookup a l).isSome = true := by
  induction l with
  | nil => simp at h
  | cons p ps ih =>
    simp only [List.map_cons, List.mem_cons] at h
    rw [List.lookup]
    rcases h with h | h
    · simp [h]
    · split
      · simp
      · exact ih h

/-- The run's app list when changes were found. -/
theorem run1_apps_of_changes (env : Env) (apps0 : List App)
    (hnc : ¬ noChangesOf env apps0 = true) :
    (runNormal env apps0).apps = (peaOfRun env apps0).updatedApps
      ++ addNewGames env (newSteamOf env apps0)
      ++ addEpicGames env (newEpicOf env apps0)
      ++ addXboxGames env (newXboxOf env apps0)
      ++ addCustomGames env (existingCmdsOf env apps0) := by
  unfold runNormal
  rw [if_neg hnc]

/-- Kept entries stay in the run's output. -/
theorem run1_updated_sub (env : Env) (apps0 : List App) :
    ∀ a ∈ (peaOfRun env apps0).updatedApps, a ∈ (runNormal env apps0).apps := by
  intro a ha
  unfold runNormal
  split
  · rw [peaOfRun, pea_updatedApps] at ha
    exact (List.mem_filter.mp ha).1
  · exact List.mem_append.mpr (Or.inl (List.mem_append.mpr (Or.inl
      (List.mem_append.mpr (Or.inl (List.mem_append.mpr (Or.inl ha)))))))

/-- Every entry of the run's output is kept by a second classification:
surviving entries were classified kept, and each generated addition's
command round-trips into a kept classification under `wellFormedEnvB`. -/
theorem run1_keepAll (env : Env) (hwf : wellFormedEnvB env = true) (apps0 : List App) :
    ∀ a ∈ (runNormal env apps0).apps, (appStep (mkCtx env) a).keepApp = true := by
  have F := wf_facts env hwf
  have hfol : Ctx.folderN (mkCtx env) = "" := by
    simp [Ctx.folderN, mkCtx, F.hsf]
  intro a ha
  unfold runNormal at ha
  split at ha
  case isTrue hnc =>
    unfold noChangesOf at hnc
    simp only [Bool.and_eq_true, List.isEmpty_iff] at hnc
    obtain ⟨⟨⟨⟨⟨hrs, hre⟩, -⟩, -⟩, -⟩, -⟩ := hnc
    by_contra hk
    have hkf : (appStep (mkCtx env) a).keepApp = false := by
      cases hb : (appStep (mkCtx env) a).keepApp
      · rfl
      · exact absurd hb hk
    rcases keep_false_has_rem _ a hkf with h | h
    · obtain ⟨x, hx⟩ := Option.ne_none_iff_exists'.mp h
      have hmem : x ∈ (peaOfRun env apps0).removedSteam := by
        rw [peaOfRun, pea_removedSteam]
        exact List.mem_filterMap.mpr ⟨a, ha, hx⟩
      rw [peaOfRun] at hmem hrs
      rw [hrs] at hmem
      simp at hmem
    · obtain ⟨x, hx⟩ := Option.ne_none_iff_exists'.mp h
      have hmem : x ∈ (peaOfRun env apps0).removedEpic := by
        rw [peaOfRun, pea_removedEpic]
        exact List.mem_filterMap.mpr ⟨a, ha, hx⟩
      rw [peaOfRun] at hmem hre
      rw [hre] at hmem
      simp at hmem
  case isFalse hnc =>
    rcases List.mem_append.mp ha with h4 | hCG
    rotate_left
    · -- custom addition
      unfold addCustomGames at hCG
      obtain ⟨g, hg, hfg⟩ := List.mem_filterMap.mp hCG
      have hf := F.hC g hg
      by_cases hcnd : pyStrip g.cmd = "" ∨
          (existingCmdsOf env apps0).contains (pyStrip g.cmd) = true
      · rw [if_pos hcnd] at hfg
        cases hfg
      · rw [if_neg hcnd] at hfg
        rw [Option.some.injEq] at hfg
        have hcmd : a.cmd = pyStrip g.cmd := by
          rw [← hfg]
          simp [mkCustomApp, mkImportedApp, F.hsf]
        apply keep_of_not_steam_epic _ _ hfol
        · rw [hcmd, hf.2.1, hf.2.1]
          exact hf.2.2.1
        · rw [hcmd, hf.2.1, hf.2.1]
          exact hf.2.2.2
    rcases List.mem_append.mp h4 with h3 | hXG
    rotate_left
    · -- xbox addition
      unfold addXboxGames at hXG
      obtain ⟨k, hk, hmk⟩ := List.mem_filterMap.mp hXG
      obtain ⟨nm, hnm, heq⟩ := Option.map_eq_some'.mp hmk
      have hkkey : k ∈ env.xbox.map Prod.fst := (List.mem_filter.mp hk).1
      obtain ⟨p, hp, hp1⟩ := List.mem_map.mp hkkey
      have hf := F.hX p hp
      rw [hp1] at hf
      have hcmdeq : a = mkImportedApp nm k ((env.xboxGrid k).getD "") := by
        rw [← heq]
        simp [F.hsf]
      have hcls := classify_xbox_add (mkCtx env) hfol nm ((env.xboxGrid k).getD "") k
        hf.1 hf.2.1 hf.2.2.1 hf.2.2.2.1 hf.2.2.2.2 hkkey
      rw [hcmdeq]
      simp [appStep, hcls]
    rcases List.mem_append.mp h3 with h2 | hEG
    rotate_left
    · -- epic addition
      unfold addEpicGames at hEG
      obtain ⟨aid, hak, hmk⟩ := List.mem_filterMap.mp hEG
      obtain ⟨nm, hnm, heq⟩ := Option.map_eq_some'.mp hmk
      have hakey : aid ∈ env.epic.map Prod.fst := (List.mem_filter.mp hak).1
      obtain ⟨p, hp, hp1⟩ := List.mem_map.mp hakey
      have hf := F.hE p hp
      rw [hp1] at hf
      have hcmdeq : a = mkImportedApp nm (epicLaunchCmd env.nt aid)
          ((env.epicGrid aid).getD "") := by
        rw [← heq]
        simp [F.hsf]
      have hcls := classify_epic_add (mkCtx env) hfol nm (epicLaunchCmd env.nt aid)
        ((env.epicGrid aid).getD "") aid hf.1 hf.2.1 hf.2.2.1 hf.2.2.2 hakey
      rw [hcmdeq]
      simp [appStep, hcls]
    rcases List.mem_append.mp h2 with hU | hSG
    · -- kept entry
      rw [peaOfRun, pea_updatedApps] at hU
      exact (List.mem_filter.mp hU).2
    · -- steam addition
      unfold addNewGames at hSG
      obtain ⟨i, hik, hmk⟩ := List.mem_filterMap.mp hSG
      obtain ⟨nm, hnm, heq⟩ := Option.map_eq_some'.mp hmk
      have hikey : i ∈ env.steam.map Prod.fst := (List.mem_filter.mp hik).1
      obtain ⟨p, hp, hp1⟩ := List.mem_map.mp hikey
      have hf := F.hS p hp
      rw [hp1] at hf
      have hcls := classify_steam_add (mkCtx env) hfol nm (steamCmdStr env i)
        ((env.steamGrid i).getD "") i hf.1 hf.2.1 hf.2.2 hikey
      rw [← heq]
      simp [appStep, hcls]

/-- `add_epic_games` with no shortcuts folder writes the plain protocol
launch command. -/
theorem addEpicGames_no_shortcuts (env : Env) (hsf : env.shortcutsFolder = "")
    (ids : List String) :
    addEpicGames env ids = ids.filterMap fun a =>
      (env.epic.lookup a).map fun nm =>
        mkImportedApp nm (epicLaunchCmd env.nt a) ((env.epicGrid a).getD "") := by
  unfold addEpicGames
  simp [hsf]

/-- `add_xbox_games` with no shortcuts folder writes the discovered
executable path. -/
theorem addXboxGames_no_shortcuts (env : Env) (hsf : env.shortcutsFolder = "")
    (ks : List String) :
    addXboxGames env ks = ks.filterMap fun k =>
      (env.xbox.lookup k).map fun nm =>
        mkImportedApp nm k ((env.xboxGrid k).getD "") := by
  unfold addXboxGames
  simp [hsf]

/-- With no shortcuts folder the custom app's command is the stripped
custom command itself. -/
theorem mkCustomApp_cmd (env : Env) (hsf : env.shortcutsFolder = "")
    (g : CustomGame) : (mkCustomApp env g).cmd = pyStrip g.cmd := by
  simp [mkCustomApp, mkImportedApp, hsf]

/-- A second reconciliation against the first run's output finds no
changes (Windows, no shortcuts folder, well-formed identities). -/
theorem run2_noChanges (env : Env) (hwf : wellFormedEnvB env = true)
    (apps0 : List App) :
    noChangesOf env ((runNormal env apps0).apps) = true := by
  have F := wf_facts env hwf
  have hfol : Ctx.folderN (mkCtx env) = "" := by
    simp [Ctx.folderN, mkCtx, F.hsf]
  by_cases hnc : noChangesOf env apps0 = true
  · have h1 : (runNormal env apps0).apps = apps0 := by
      unfold runNormal
      rw [if_pos hnc]
    rw [h1]
    exact hnc
  · set apps1 := (runNormal env apps0).apps with happs1def
    have happs1 : apps1 = (peaOfRun env apps0).updatedApps
        ++ addNewGames env (newSteamOf env apps0)
        ++ addEpicGames env (newEpicOf env apps0)
        ++ addXboxGames env (newXboxOf env apps0)
        ++ addCustomGames env (existingCmdsOf env apps0) := by
      rw [happs1def]
      exact run1_apps_of_changes env apps0 hnc
    have keepAll : ∀ a ∈ apps1, (appStep (mkCtx env) a).keepApp = true := by
      rw [happs1def]
      exact run1_keepAll env hwf apps0
    have hupd2 : (peaOfRun env apps1).updatedApps = apps1 := by
      rw [peaOfRun, pea_updatedApps]
      exact List.filter_eq_self.mpr keepAll
    have hU_sub : ∀ a ∈ (peaOfRun env apps0).updatedApps, a ∈ apps1 := by
      rw [happs1def]
      exact run1_updated_sub env apps0
    -- Steam identities are all credited on the second pass.
    have hSteam : ∀ i ∈ env.steam.map Prod.fst,
        i ∈ (peaOfRun env apps1).existingSteamApps := by
      intro i hi
      rw [peaOfRun, pea_existingSteam]
      by_cases hc : i ∈ (peaOfRun env apps0).existingSteamApps
      · rw [peaOfRun, pea_existingSteam] at hc
        obtain ⟨a, ha0, hx⟩ := List.mem_filterMap.mp hc
        have hk := exSteam_keep _ a i hx
        have ha1 : a ∈ apps1 := by
          apply hU_sub
          rw [peaOfRun, pea_updatedApps]
          exact List.mem_filter.mpr ⟨ha0, hk⟩
        exact List.mem_filterMap.mpr ⟨a, ha1, hx⟩
      · have hnew : i ∈ newSteamOf env apps0 := by
          unfold newSteamOf
          refine List.mem_filter.mpr ⟨hi, ?_⟩
          simp [hc]
        obtain ⟨nm, hnm⟩ :=
          Option.isSome_iff_exists.mp (lookup_isSome_of_mem env.steam i hi)
        have haddmem : mkImportedApp nm (steamCmdStr env i) ((env.steamGrid i).getD "")
            ∈ addNewGames env (newSteamOf env apps0) := by
          unfold addNewGames
          refine List.mem_filterMap.mpr ⟨i, hnew, ?_⟩
          rw [hnm]
          rfl
        have ha1 : mkImportedApp nm (steamCmdStr env i) ((env.steamGrid i).getD "")
            ∈ apps1 := by
          rw [happs1]
          exact List.mem_append.mpr (Or.inl (List.mem_append.mpr (Or.inl
            (List.mem_append.mpr (Or.inl (List.mem_append.mpr (Or.inr haddmem)))))))
        obtain ⟨p, hp, hp1⟩ := List.mem_map.mp hi
        have hf := F.hS p hp
        rw [hp1] at hf
        have hcls := classify_steam_add (mkCtx env) hfol nm (steamCmdStr env i)
          ((env.steamGrid i).getD "") i hf.1 hf.2.1 hf.2.2 hi
        exact List.mem_filterMap.mpr ⟨_, ha1, by simp [appStep, hcls]⟩
    -- Epic identities are all credited on the second pass.
    have hEpic : ∀ i ∈ env.epic.map Prod.fst,
        i ∈ (peaOfRun env apps1).existingEpicApps := by
      intro i hi
      rw [peaOfRun, pea_existingEpic]
      by_cases hc : i ∈ (peaOfRun env apps0).existingEpicApps
      · rw [peaOfRun, pea_existingEpic] at hc
        obtain ⟨a, ha0, hx⟩ := List.mem_filterMap.mp hc
        have hk := exEpic_keep _ a i hx
        have ha1 : a ∈ apps1 := by
          apply hU_sub
          rw [peaOfRun, pea_updatedApps]
          exact List.mem_filter.mpr ⟨ha0, hk⟩
        exact List.mem_filterMap.mpr ⟨a, ha1, hx⟩
      · have hnew : i ∈ newEpicOf env apps0 := by
          unfold newEpicOf
          refine List.mem_filter.mpr ⟨hi, ?_⟩
          simp [hc]
        obtain ⟨nm, hnm⟩ :=
          Option.isSome_iff_exists.mp (lookup_isSome_of_mem env.epic i hi)
        have haddmem : mkImportedApp nm (epicLaunchCmd env.nt i)
            ((env.epicGrid i).getD "")
            ∈ addEpicGames env (newEpicOf env apps0) := by
          rw [addEpicGames_no_shortcuts env F.hsf]
          refine List.mem_filterMap.mpr ⟨i, hnew, ?_⟩
          rw [hnm]
          rfl
        have ha1 : mkImportedApp nm (epicLaunchCmd env.nt i)
            ((env.epicGrid i).getD "") ∈ apps1 := by
          rw [happs1]
          exact List.mem_append.mpr (Or.inl (List.mem_append.mpr (Or.inl
            (List.mem_append.mpr (Or.inr haddmem)))))
        obtain ⟨p, hp, hp1⟩ := List.mem_map.mp hi
        have hf := F.hE p hp
        rw [hp1] at hf
        have hcls := classify_epic_add (mkCtx env) hfol nm (epicLaunchCmd env.nt i)
          ((env.epicGrid i).getD "") i hf.1 hf.2.1 hf.2.2.1 hf.2.2.2 hi
        exact List.mem_filterMap.mpr ⟨_, ha1, by simp [appStep, hcls]⟩
    -- Xbox commands are all credited on the second pass.
    have hXbox : ∀ k ∈ env.xbox.map Prod.fst,
        k ∈ (peaOfRun env apps1).existingXboxCmds := by
      intro k hk
      rw [peaOfRun, pea_existingXbox]
      by_cases hc : k ∈ (peaOfRun env apps0).existingXboxCmds
      · rw [peaOfRun, pea_existingXbox] at hc
        obtain ⟨a, ha0, hx⟩ := List.mem_filterMap.mp hc
        have hkp := exXbox_keep _ a k hx
        have ha1 : a ∈ apps1 := by
          apply hU_sub
          rw [peaOfRun, pea_updatedApps]
          exact List.mem_filter.mpr ⟨ha0, hkp⟩
        exact List.mem_filterMap.mpr ⟨a, ha1, hx⟩
      · have hnew : k ∈ newXboxOf env apps0 := by
          unfold newXboxOf
          refine List.mem_filter.mpr ⟨hk, ?_⟩
          simp [hc]
        obtain ⟨nm, hnm⟩ :=
          Option.isSome_iff_exists.mp (lookup_isSome_of_mem env.xbox k hk)
        have haddmem : mkImportedApp nm k ((env.xboxGrid k).getD "")
            ∈ addXboxGames env (newXboxOf env apps0) := by
          rw [addXboxGames_no_shortcuts env F.hsf]
          refine List.mem_filterMap.mpr ⟨k, hnew, ?_⟩
          rw [hnm]
          rfl
        have ha1 : mkImportedApp nm k ((env.xboxGrid k).getD "") ∈ apps1 := by
          rw [happs1]
          exact List.mem_append.mpr (Or.inl (List.mem_append.mpr (Or.inr haddmem)))
        obtain ⟨p, hp, hp1⟩ := List.mem_map.mp hk
        have hf := F.hX p hp
        rw [hp1] at hf
        have hcls := classify_xbox_add (mkCtx env) hfol nm ((env.xboxGrid k).getD "") k
          hf.1 hf.2.1 hf.2.2.1 hf.2.2.2.1 hf.2.2.2.2 hk
        exact List.mem_filterMap.mpr ⟨_, ha1, by simp [appStep, hcls]⟩
    -- Every custom command is present among the second run's commands.
    have hsup : ∀ x ∈ existingCmdsOf env apps0, x ∈ existingCmdsOf env apps1 := by
      intro x hx
      simp only [existingCmdsOf] at hx ⊢
      rw [hupd2]
      rcases List.mem_append.mp hx with hb | hn
      · obtain ⟨a, ha, rfl⟩ := List.mem_map.mp hb
        exact List.mem_append.mpr (Or.inl (List.mem_map.mpr ⟨a, hU_sub a ha, rfl⟩))
      · obtain ⟨c, hcm, rfl⟩ := List.mem_map.mp hn
        have hc2 := List.mem_filter.mp hcm
        obtain ⟨a, ha, rfl⟩ := List.mem_map.mp hc2.1
        refine List.mem_append.mpr (Or.inr (List.mem_map.mpr ⟨_, ?_, rfl⟩))
        exact List.mem_filter.mpr ⟨List.mem_map.mpr ⟨a, hU_sub a ha, rfl⟩, hc2.2⟩
    have hCust : ∀ g ∈ env.customList,
        pyStrip g.cmd ∈ existingCmdsOf env apps1 := by
      intro g hg
      have hf := F.hC g hg
      by_cases hEx : (existingCmdsOf env apps0).contains (pyStrip g.cmd) = true
      · exact hsup _ (by simpa using hEx)
      · have happmem : mkCustomApp env g
            ∈ addCustomGames env (existingCmdsOf env apps0) := by
          unfold addCustomGames
          refine List.mem_filterMap.mpr ⟨g, hg, ?_⟩
          rw [if_neg]
          rintro (h | h)
          · rw [hf.2.1] at h
            exact hf.1 h
          · exact hEx h
        have ha1 : mkCustomApp env g ∈ apps1 := by
          rw [happs1]
          exact List.mem_append.mpr (Or.inr happmem)
        simp only [existingCmdsOf]
        rw [hupd2]
        refine List.mem_append.mpr (Or.inl ?_)
        refine List.mem_map.mpr ⟨mkCustomApp env g, ha1, ?_⟩
        rw [mkCustomApp_cmd env F.hsf g, hf.2.1]
        exact hf.2.1
    -- Assemble the six no-change conjuncts.
    unfold noChangesOf
    simp only [Bool.and_eq_true, List.isEmpty_iff]
    refine ⟨⟨⟨⟨⟨?_, ?_⟩, ?_⟩, ?_⟩, ?_⟩, ?_⟩
    · rw [peaOfRun, pea_removedSteam]
      refine List.filterMap_eq_nil_iff.mpr fun a ha => ?_
      exact (keep_true_rem_none _ a (keepAll a ha)).1
    · rw [peaOfRun, pea_removedEpic]
      refine List.filterMap_eq_nil_iff.mpr fun a ha => ?_
      exact (keep_true_rem_none _ a (keepAll a ha)).2
    · unfold newSteamOf
      refine List.filter_eq_nil_iff.mpr fun i hi => ?_
      have := hSteam i hi
      simp [this]
    · unfold newEpicOf
      refine List.filter_eq_nil_iff.mpr fun i hi => ?_
      have := hEpic i hi
      simp [this]
    · unfold newXboxOf
      refine List.filter_eq_nil_iff.mpr fun k hk => ?_
      have := hXbox k hk
      simp [this]
    · unfold newCustomOf
      refine List.filter_eq_nil_iff.mpr fun g hg => ?_
      have := hCust g hg
      simp [this]

/-- When the diff is empty the run saves nothing and reports no changes. -/
theorem runNormal_of_noChanges (env : Env) (apps : List App)
    (h : noChangesOf env apps = true) :
    (runNormal env apps).saved = false ∧ (runNormal env apps).noChanges = true ∧
    (runNormal env apps).apps = apps := by
  unfold runNormal
  rw [if_pos h]
  exact ⟨rfl, rfl, rfl⟩

/-- C1 (amended): the short-circuit holds as specified — whenever every
per-source removed and added set is empty, the run performs no save and
reports "no changes", leaving the apps list untouched.  The idempotence
consequence holds on Windows with no shortcuts folder configured and
well-formed source identities (`wellFormedEnvB`): a second run against the
first run's output performs zero writes.  (On non-Windows hosts the Steam
commands are written with wrapper prefixes the classifier does not
recognize, so the consequence fails there — see the counterexample.) -/
theorem c1_amended (env : Env) (h : wellFormedEnvB env = true) (apps0 : List App) :
    (noChangesOf env apps0 = true →
      (runNormal env apps0).saved = false ∧ (runNormal env apps0).noChanges = true ∧
      (runNormal env apps0).apps = apps0) ∧
    (runNormal env (runNormal env apps0).apps).saved = false ∧
    (runNormal env (runNormal env apps0).apps).noChanges = true := by
  have h2 := run2_noChanges env h apps0
  have hr := runNormal_of_noChanges env _ h2
  exact ⟨fun hnc => runNormal_of_noChanges env apps0 hnc, hr.1, hr.2.1⟩

/-- A Linux run environment with one discovered Steam game. -/
def envPosix : Env :=
  { nt := false, flatpak := false, steam := [("100", "Portal")], epic := [], xbox := [],
    customList := [], shortcutsFolder := "",
    steamGrid := fun _ => none, epicGrid := fun _ => none, xboxGrid := fun _ => none,
    customGrid := fun _ => none, hashId := fun _ => "0",
    existsF := fun _ => false, isfileF := fun _ => false,
    readTarget := fun _ => none, createShortcut := fun _ => false }

/-- C1 counterexample: on a non-Windows host the first run writes the Steam
entry with the wrapper command `steam steam://rungameid/100`, which does not
start with `steam://rungameid/`, so the second run against the unchanged
discovered set does not recognize it, re-adds the game, and saves again —
the list of commands after the second run holds the same wrapper command
twice.  Hence "running the engine a second time against an unchanged
discovered set performs zero writes" is false on this code as a universal
statement. -/
theorem c1_counterexample :
    (runNormal envPosix []).saved = true ∧
    (runNormal envPosix (runNormal envPosix []).apps).saved = true ∧
    ((runNormal envPosix (runNormal envPosix []).apps).apps.map
      (fun a => a.cmd)) =
      ["steam steam://rungameid/100", "steam steam://rungameid/100"] := by
  decide

/-- Closed witness for `c1_amended`: a Windows environment with Steam,
Epic, Xbox and custom sources all populated. -/
def envC1w : Env :=
  { nt := true, flatpak := false,
    steam := [("100", "Alpha"), ("200", "Beta")],
    epic := [("EpicApp", "Epic Game")],
    xbox := [("C:\\XboxGames\\Halo\\halo.exe", "Halo")],
    customList := [⟨"My Tool", "D:\\tools\\run.exe", ""⟩],
    shortcutsFolder := "",
    steamGrid := fun _ => none, epicGrid := fun _ => none, xboxGrid := fun _ => none,
    customGrid := fun _ => none, hashId := fun _ => "0",
    existsF := fun _ => false, isfileF := fun _ => false,
    readTarget := fun _ => none, createShortcut := fun _ => false }

theorem c1_amended_witness :
    wellFormedEnvB envC1w = true ∧
    (runNormal envC1w (runNormal envC1w [appManualC4]).apps).saved = false ∧
    (runNormal envC1w (runNormal envC1w [appManualC4]).apps).noChanges = true :=
  ⟨by decide, (c1_amended envC1w (by decide) [appManualC4]).2.1,
    (c1_amended envC1w (by decide) [appManualC4]).2.2⟩

end Gamesphere
